import Mathlib

/-!
Verification development for the climate-dashboard repository.

The embedding below models, in order:
* the JSON fragment the server exchanges with the completion service
  (`JVal`, `jsonDecode`, `serializeJVal`) — a shallow model of the
  ECMAScript `JSON.parse` / `JSON.stringify` pair over objects, arrays,
  strings, numbers (with optional fraction and exponent), booleans and
  null; string escape sequences are the one construct left out (none
  occurs in any value this application builds, and every theorem below
  that quantifies over surrounding text excludes the quote character that
  would make an escape reachable);
* the response parser/repairer of `generateScenario` (server, part_002,
  lines 325–364): direct parse of the trimmed text, then the greedy
  `/\x7b[\s\S]*\x7d/` regex extraction, then a diagnostic error carrying a
  200-character prefix;
* the two keyword fallback generators (`createUniqueScenarioFromInput`,
  `generateFallbackScenario`);
* the Express routes for scenario creation, listing and lookup, together
  with the node-sqlite3 driver behaviour they actually invoke;
* database seeding (`server/database.js`);
* the speculative-forecast interpolation of the dashboard client
  (`Dashboard.tsx`, `generateSpeculativeForecast`), with the
  `Math.random()` perturbation made an explicit parameter as the spec's
  determinism note suggests.

JavaScript numbers are modelled as rationals; machine floating point is not
modelled, which is faithful for every bound and equation stated here.
-/

set_option maxRecDepth 100000

namespace ClimateDash

/-- Characters that are delicate to write literally; named once. -/
def lbrace : Char := Char.ofNat 123

def rbrace : Char := Char.ofNat 125

def dquote : Char := Char.ofNat 34

def bslash : Char := Char.ofNat 92

/-- A JSON value as this application uses them.  A number is kept as the
pair of its integer mantissa and decimal scale (value `m / 10^e`), which is
exactly the information a plain decimal numeral carries, so parsing and
printing are inverse on the nose. -/
inductive JVal where
  | num (m : Int) (e : Nat)
  | str (s : String)
  | obj (fields : List (String × JVal))
  | bool (b : Bool)
  | null
  | arr (elems : List JVal)

/-- JavaScript property access `v.f`: `none` models `undefined`. -/
def JVal.getField : JVal → String → Option JVal
  | .obj fields, k => (fields.find? (fun p => p.1 == k)).map Prod.snd
  | _, _ => none

/-! ### Decimal digits -/

/-- Digit character for `d < 10`. -/
def digitChar (d : Nat) : Char := Char.ofNat (48 + d)

/-- Decimal digits of `n`, most significant first, empty for `0`;
`fuel ≥ n` suffices. -/
def natDigitsAux : Nat → Nat → List Char
  | 0, _ => []
  | fuel + 1, n => if n = 0 then [] else natDigitsAux fuel (n / 10) ++ [digitChar (n % 10)]

/-- Decimal digit string of `n` (as a character list), `"0"` for zero. -/
def natDigits (n : Nat) : List Char := if n = 0 then [digitChar 0] else natDigitsAux n n

/-- `natDigits n` left-padded with zeros to length `e`. -/
def natDigitsPad (e n : Nat) : List Char :=
  List.replicate (e - (natDigits n).length) (digitChar 0) ++ natDigits n

/-- Numeric value of a digit character. -/
def digitVal (c : Char) : Nat := c.toNat - 48

/-- Left-to-right accumulation of a digit string's value. -/
def digitsVal (l : List Char) : Nat := l.foldl (fun a c => a * 10 + digitVal c) 0

/-! ### Serialization (model of `JSON.stringify` on the above fragment) -/

/-- The decimal numeral of `m / 10^e`, as `JSON.stringify` prints it:
optional minus sign, integer digits, and — when `e > 0` — a point followed
by exactly `e` fraction digits. -/
def numChars (m : Int) (e : Nat) : List Char :=
  let n := m.natAbs
  let sign : List Char := if m < 0 then ['-'] else []
  if e = 0 then sign ++ natDigits n
  else sign ++ natDigits (n / 10 ^ e) ++ ['.'] ++ natDigitsPad e (n % 10 ^ e)

mutual
/-- `JSON.stringify` on the modelled fragment (no spaces, keys quoted). -/
def serializeJVal : JVal → List Char
  | .num m e => numChars m e
  | .str s => dquote :: s.data ++ [dquote]
  | .obj fields => lbrace :: serializeFields fields ++ [rbrace]
  | .bool b => if b then ['t', 'r', 'u', 'e'] else ['f', 'a', 'l', 's', 'e']
  | .null => ['n', 'u', 'l', 'l']
  | .arr vs => '[' :: serializeElems vs ++ [']']

def serializeFields : List (String × JVal) → List Char
  | [] => []
  | [(k, v)] => dquote :: k.data ++ [dquote, ':'] ++ serializeJVal v
  | (k, v) :: rest =>
      dquote :: k.data ++ [dquote, ':'] ++ serializeJVal v ++ ',' :: serializeFields rest

def serializeElems : List JVal → List Char
  | [] => []
  | [v] => serializeJVal v
  | v :: rest => serializeJVal v ++ ',' :: serializeElems rest
end

/-- String form of serialization. -/
def serializeStr (v : JVal) : String := String.mk (serializeJVal v)

/-! ### Parsing (model of `JSON.parse` on the above fragment) -/

/-- JSON whitespace. -/
def isWsChar (c : Char) : Bool := c = ' ' || c = '\n' || c = '\t' || c = '\r'

/-- Drop leading whitespace. -/
def skipWs (l : List Char) : List Char := l.dropWhile isWsChar

/-- Is `c` a decimal digit? -/
def isDigitChar (c : Char) : Bool := 48 ≤ c.toNat && c.toNat ≤ 57

/-- Consume a maximal run of digits, returning accumulated value, count of
digits consumed, and the rest. -/
def takeDigits : List Char → Nat → Nat → Nat × Nat × List Char
  | [], acc, cnt => (acc, cnt, [])
  | c :: r, acc, cnt =>
      if isDigitChar c then takeDigits r (acc * 10 + digitVal c) (cnt + 1)
      else (acc, cnt, c :: r)

/-- Reapply a leading minus sign to a parsed magnitude. -/
def signApply (neg : Bool) (k : Nat) : Int := if neg then -(k : Int) else (k : Int)

/-- Scale the value `m / 10^e` by `10^d` (by `10^-d` when `esign` is set),
renormalized to mantissa/scale form. -/
def applyExp (m : Int) (e : Nat) (esign : Bool) (d : Nat) : Int × Nat :=
  if esign then (m, e + d)
  else if e ≤ d then (m * 10 ^ (d - e), 0) else (m, e - d)

/-- The digit run of an exponent part (at least one digit required). -/
def parseExpDigits (m : Int) (e : Nat) (esign : Bool) (l : List Char) :
    Option ((Int × Nat) × List Char) :=
  match l with
  | c :: r =>
    if isDigitChar c then
      let t := takeDigits (c :: r) 0 0
      some (applyExp m e esign t.1, t.2.2)
    else none
  | [] => none

/-- Optional exponent part after the digits: `e` or `E`, an optional sign
and digits; any other continuation leaves the number as it stands. -/
def parseExpTail (m : Int) (e : Nat) (l : List Char) : Option ((Int × Nat) × List Char) :=
  match l with
  | [] => some ((m, e), [])
  | c :: r =>
    if c = 'e' ∨ c = 'E' then
      if r.head? = some '+' then parseExpDigits m e false r.tail
      else if r.head? = some '-' then parseExpDigits m e true r.tail
      else parseExpDigits m e false r
    else some ((m, e), c :: r)

/-- Digits, optional point and further digits, optional exponent, after
the sign was handled. -/
def parseNumCore (neg : Bool) (l1 : List Char) : Option ((Int × Nat) × List Char) :=
  match l1 with
  | [] => none
  | c :: r =>
    if isDigitChar c then
      let t1 := takeDigits (c :: r) 0 0
      match t1.2.2 with
      | c2 :: l3 =>
        if c2 = '.' then
          match l3 with
          | c3 :: _ =>
            if isDigitChar c3 then
              let t2 := takeDigits l3 0 0
              parseExpTail (signApply neg (t1.1 * 10 ^ t2.2.1 + t2.1)) t2.2.1 t2.2.2
            else none
          | [] => none
        else parseExpTail (signApply neg t1.1) 0 (c2 :: l3)
      | [] => some ((signApply neg t1.1, 0), [])
    else none

/-- Parse a decimal number: optional minus, digits, optional point and
digits, optional exponent. -/
def parseNum (l : List Char) : Option ((Int × Nat) × List Char) :=
  if l.head? = some '-' then parseNumCore true l.tail else parseNumCore false l

/-- Parse a string body after the opening quote; escape sequences are
outside the modelled fragment (none occurs in this application's values). -/
def parseStrBody (l : List Char) : Option (String × List Char) :=
  let body := l.takeWhile (fun c => !(c = dquote || c = bslash))
  match l.drop body.length with
  | c :: r => if c = dquote then some (String.mk body, r) else none
  | [] => none

mutual
/-- Parse one JSON value (fuelled; one unit per nesting step). -/
def parseVal : Nat → List Char → Option (JVal × List Char)
  | 0, _ => none
  | fuel + 1, l =>
    match skipWs l with
    | [] => none
    | c :: r =>
      if c = dquote then (parseStrBody r).map (fun p => (JVal.str p.1, p.2))
      else if c = lbrace then
        match skipWs r with
        | c2 :: r2 =>
          if c2 = rbrace then some (JVal.obj [], r2)
          else
            match parseMembers fuel (c2 :: r2) with
            | some (ms, rest) => some (JVal.obj ms, rest)
            | none => none
        | [] => none
      else if c = '[' then
        match skipWs r with
        | c2 :: r2 =>
          if c2 = ']' then some (JVal.arr [], r2)
          else
            match parseElems fuel (c2 :: r2) with
            | some (vs, rest) => some (JVal.arr vs, rest)
            | none => none
        | [] => none
      else if c = 't' then
        if ['r', 'u', 'e'].isPrefixOf r then some (JVal.bool true, r.drop 3) else none
      else if c = 'f' then
        if ['a', 'l', 's', 'e'].isPrefixOf r then some (JVal.bool false, r.drop 4) else none
      else if c = 'n' then
        if ['u', 'l', 'l'].isPrefixOf r then some (JVal.null, r.drop 3) else none
      else (parseNum (c :: r)).map (fun p => (JVal.num p.1.1 p.1.2, p.2))

/-- Parse one or more `"key": value` members followed by `,` more members
or the closing brace. -/
def parseMembers : Nat → List Char → Option (List (String × JVal) × List Char)
  | 0, _ => none
  | fuel + 1, l =>
    match skipWs l with
    | c :: r =>
      if c = dquote then
        match parseStrBody r with
        | some (k, r1) =>
          match skipWs r1 with
          | c2 :: r2 =>
            if c2 = ':' then
              match parseVal fuel r2 with
              | some (v, r3) =>
                match skipWs r3 with
                | c3 :: r4 =>
                  if c3 = ',' then
                    match parseMembers fuel r4 with
                    | some (ms, r5) => some ((k, v) :: ms, r5)
                    | none => none
                  else if c3 = rbrace then some ([(k, v)], r4)
                  else none
                | [] => none
              | none => none
            else none
          | [] => none
        | none => none
      else none
    | [] => none

/-- Parse one or more array elements followed by `,` more elements or the
closing bracket. -/
def parseElems : Nat → List Char → Option (List JVal × List Char)
  | 0, _ => none
  | fuel + 1, l =>
    match parseVal fuel l with
    | some (v, r) =>
      match skipWs r with
      | c :: r2 =>
        if c = ',' then
          match parseElems fuel r2 with
          | some (vs, r3) => some (v :: vs, r3)
          | none => none
        else if c = ']' then some ([v], r2)
        else none
      | [] => none
    | none => none
end

/-- Model of `JSON.parse` on the fragment: parse one value and require only
whitespace after it. -/
def jsonDecode (s : String) : Option JVal :=
  match parseVal (s.length + 1) s.data with
  | some (v, rest) => if (skipWs rest).isEmpty then some v else none
  | none => none

/-! ### `takeDigits` lemmas -/

/-- The head of `rest`, if any, is not a digit. -/
def restNotDigit (rest : List Char) : Prop :=
  ∀ c l', rest = c :: l' → isDigitChar c = false

/-! ### `parseNum` on serialized numerals -/

/-- The head of `rest`, if any, neither continues digits nor opens a
fraction or exponent. -/
def numContOk (rest : List Char) : Prop :=
  ∀ c l', rest = c :: l' → isDigitChar c = false ∧ c ≠ '.' ∧ c ≠ 'e' ∧ c ≠ 'E'

/-! ### `parseStrBody` on serialized keys -/

/-- A key (or string value) the modelled fragment can carry: no quote and
no backslash among its characters. -/
def keyOk (s : String) : Prop := ∀ c ∈ s.data, c ≠ dquote ∧ c ≠ bslash

/-! ### Round trip for serialized flat objects -/

/-- Well-formed flat record: presentable keys and plain numeric values. -/
def fieldsOk (fields : List (String × JVal)) : Prop :=
  ∀ p ∈ fields, keyOk p.1 ∧ ∃ m e, p.2 = JVal.num m e

/-! ### Response parser/repairer (`generateScenario`, part_002 lines 333–358) -/

/-- The match of the greedy regex `/\x7b[\s\S]*\x7d/`: the substring from
the first opening brace through the last closing brace, when the latter
comes after the former; no match otherwise. -/
def extractBracedL (l : List Char) : Option (List Char) :=
  let rest := l.dropWhile (fun c => !(c = lbrace))
  match rest with
  | [] => none
  | _ :: _ =>
    let rev := rest.reverse.dropWhile (fun c => !(c = rbrace))
    match rev with
    | [] => none
    | _ :: _ => some rev.reverse

def extractBraced (s : String) : Option String := (extractBracedL s.data).map String.mk

/-- Model of JavaScript `String.prototype.trim`. -/
def jsTrim (s : String) : String :=
  String.mk (((s.data.dropWhile isWsChar).reverse.dropWhile isWsChar).reverse)

/-- `response.substring(0, 200) + "..."` as the source builds diagnostics. -/
def truncate200 (s : String) : String := String.mk (s.data.take 200) ++ "..."

/-- The two-phase response parse of `generateScenario`: direct decode of
the trimmed completion text, then decode of the greedy brace extraction,
then a thrown error carrying a truncated prefix of the text. -/
def parseCompletion (content : String) : Except String JVal :=
  let response := jsTrim content
  match jsonDecode response with
  | some v => Except.ok v
  | none =>
    match extractBraced response with
    | some sub =>
      match jsonDecode sub with
      | some v => Except.ok v
      | none => Except.error ("AI generated invalid JSON. Response: " ++ truncate200 response)
    | none => Except.error ("AI did not generate valid JSON. Response: " ++ truncate200 response)

/-- The fixed field list of an `AltForecast` record, as the prompt's JSON
example enumerates it. -/
def altForecastFieldNames : List String :=
  ["global_temp_2100", "carbon_emissions_2100", "sea_level_rise_2100", "death_toll_annual",
   "refugees", "arable_land_loss_percent", "population", "biodiversity_loss_percent",
   "gdp_loss_percent"]

/-! ### Keyword fallback generators (part_002 lines 368–576) -/

/-- Boolean infix search over character lists (JavaScript `includes`). -/
def listIsInfix (needle : List Char) : List Char → Bool
  | [] => needle.isEmpty
  | c :: rest => needle.isPrefixOf (c :: rest) || listIsInfix needle rest

/-- JavaScript `hay.includes(needle)`. -/
def containsSub (hay needle : String) : Bool := listIsInfix needle.data hay.data

/-- JavaScript `toLowerCase` (the inputs involved are ASCII). -/
def jsToLower (s : String) : String := String.mk (s.data.map Char.toLower)

/-- A pre-authored `{theme, alt_forecasts, narrative}` triple. -/
structure FallbackScenario where
  theme : String
  alt_forecasts : JVal
  narrative : String

/-- Pre-authored record `uniqueSuperman` transcribed from the server source. -/
def uniqueSuperman : FallbackScenario where
  theme := "A world where Superman\x27s intervention creates both salvation and new challenges, leading to a complex human-superhero society"
  alt_forecasts := JVal.obj [("global_temp_2100", JVal.num 18 1),
    ("carbon_emissions_2100", JVal.num 85 1),
    ("sea_level_rise_2100", JVal.num 85 2),
    ("death_toll_annual", JVal.num 180000 0),
    ("refugees", JVal.num 12000000 0),
    ("arable_land_loss_percent", JVal.num 8 0),
    ("population", JVal.num 9300000000 0),
    ("biodiversity_loss_percent", JVal.num 25 0),
    ("gdp_loss_percent", JVal.num 4 0)]
  narrative := "When Superman first appeared in 2025, his intervention in the climate crisis was immediate and dramatic. Using his heat vision to melt polar ice caps strategically, he created new water channels that prevented catastrophic flooding while his super-breath generated wind patterns that stabilized extreme weather events. Within months, global temperatures began stabilizing, and the Man of Steel became humanity\x27s greatest ally in the fight against climate change.\n\nHowever, Superman\x27s intervention created unexpected consequences that reshaped human society. His constant presence led to the emergence of \"super-dependency syndrome\" - a psychological condition where communities became overly reliant on his interventions rather than developing sustainable solutions. The \"Superman Effect\" also created new geopolitical tensions, as nations competed for his attention and protection. Some regions experienced \"super-climate zones\" where Superman\x27s interventions created microclimates that were too perfect, leading to the evolution of new species that couldn\x27t survive in natural conditions.\n\nBy 2100, humanity had learned to balance Superman\x27s help with sustainable development. The \"Superman Climate Institute\" was established to coordinate his interventions with human efforts, while \"super-farmers\" learned to cultivate crops in the unique conditions created by his climate stabilization. The experience taught humanity that even the most powerful allies couldn\x27t solve complex problems alone - cooperation between superhuman and human efforts was essential for long-term sustainability."

/-- Pre-authored record `uniqueTimeTravel` transcribed from the server source. -/
def uniqueTimeTravel : FallbackScenario where
  theme := "A temporal paradox where past interventions reshape the climate timeline, creating both salvation and unforeseen chaos"
  alt_forecasts := JVal.obj [("global_temp_2100", JVal.num 15 1),
    ("carbon_emissions_2100", JVal.num 62 1),
    ("sea_level_rise_2100", JVal.num 72 2),
    ("death_toll_annual", JVal.num 150000 0),
    ("refugees", JVal.num 8000000 0),
    ("arable_land_loss_percent", JVal.num 6 0),
    ("population", JVal.num 9200000000 0),
    ("biodiversity_loss_percent", JVal.num 18 0),
    ("gdp_loss_percent", JVal.num 2 0)]
  narrative := "The discovery of time travel technology in 2030 created an unprecedented opportunity to address climate change at its source. Teams of temporal engineers, equipped with quantum-stabilized chronometers, traveled back to key moments in history: 1985 (Chernobyl), 1992 (Rio Earth Summit), and 2008 (financial crisis). They implemented clean energy technologies decades before they were originally developed, creating a cascade of technological breakthroughs that rippled forward through time.\n\nThe immediate effects were dramatic - by 2040, global temperatures had stabilized at 1.5°C above pre-industrial levels, and carbon emissions plummeted by 60%. However, the temporal interventions created unforeseen consequences. The \"temporal pollution\" caused by multiple timeline alterations led to the emergence of \"chrono-storms\" - localized weather anomalies where past and present climate patterns collided. Some regions experienced unexpected climate patterns, with parts of the Sahara receiving monsoon rains while the Amazon experienced desertification.\n\nBy 2100, humanity had learned that while time travel could solve immediate problems, it created new challenges that required innovative solutions. The \"Temporal Climate Institute\" was established to monitor and manage chrono-storms, while \"temporal farmers\" learned to cultivate crops that thrived in the unique conditions created by timeline convergence. The experience taught humanity that the most sustainable solutions were those built in the present, not borrowed from the past."

/-- Pre-authored record `uniqueAlien` transcribed from the server source. -/
def uniqueAlien : FallbackScenario where
  theme := "An alien intervention that transforms Earth\x27s climate while creating new challenges of dependency and cultural integration"
  alt_forecasts := JVal.obj [("global_temp_2100", JVal.num 12 1),
    ("carbon_emissions_2100", JVal.num 48 1),
    ("sea_level_rise_2100", JVal.num 58 2),
    ("death_toll_annual", JVal.num 120000 0),
    ("refugees", JVal.num 6000000 0),
    ("arable_land_loss_percent", JVal.num 4 0),
    ("population", JVal.num 9800000000 0),
    ("biodiversity_loss_percent", JVal.num 15 0),
    ("gdp_loss_percent", JVal.num 3 0)]
  narrative := "In 2027, the arrival of the Zephyrian Collective, a benevolent alien civilization from the Andromeda galaxy, marked the beginning of Earth\x27s most dramatic climate transformation. The Zephyrians, having experienced their own climate crisis millennia ago, arrived with advanced atmospheric purification technology and a deep understanding of planetary climate systems. Their \"atmospheric scrubbers\" - massive orbital stations that filtered greenhouse gases while releasing oxygen - began working immediately, stabilizing global temperatures within months.\n\nThe Zephyrian intervention created unprecedented opportunities but also new challenges. Their \"bio-synthetic terraforming\" technology could restore degraded ecosystems, but it also introduced alien microorganisms that began evolving in Earth\x27s environment. Some regions experienced \"zephyrian blooms\" - beautiful but potentially invasive alien plant species that could photosynthesize in extreme conditions. The technology transfer created new industries and economic opportunities, but also raised questions about Earth\x27s technological dependency on alien assistance.\n\nBy 2100, Earth had become a model of climate restoration, with global temperatures stabilized at 1.2°C above pre-industrial levels. The \"Zephyrian-Earth Climate Alliance\" had been established, creating a new era of interplanetary cooperation. However, the experience had also taught humanity valuable lessons about maintaining technological independence while embracing beneficial external assistance. The alien intervention had saved Earth\x27s climate, but it had also catalyzed a new era of human innovation and self-reliance."

/-- Pre-authored record `uniqueFusion` transcribed from the server source. -/
def uniqueFusion : FallbackScenario where
  theme := "A fusion energy revolution that transforms global energy systems while creating new environmental and social challenges"
  alt_forecasts := JVal.obj [("global_temp_2100", JVal.num 19 1),
    ("carbon_emissions_2100", JVal.num 98 1),
    ("sea_level_rise_2100", JVal.num 92 2),
    ("death_toll_annual", JVal.num 280000 0),
    ("refugees", JVal.num 15000000 0),
    ("arable_land_loss_percent", JVal.num 10 0),
    ("population", JVal.num 9100000000 0),
    ("biodiversity_loss_percent", JVal.num 28 0),
    ("gdp_loss_percent", JVal.num 5 0)]
  narrative := "The breakthrough in fusion energy technology in 2028, achieved by a collaborative effort between MIT, CERN, and private sector innovators, marked the beginning of Earth\x27s energy revolution. The \"Stellarator-7\" fusion reactor, capable of producing unlimited clean energy with minimal waste, became operational in 2030, triggering a global energy transformation that would reshape civilization. Within five years, fusion power plants had replaced 80% of fossil fuel infrastructure, leading to a dramatic reduction in carbon emissions and global temperatures stabilizing at 1.9°C above pre-industrial levels.\n\nHowever, the fusion revolution created unexpected consequences that reshaped human society. The abundance of cheap, clean energy led to the emergence of \"energy-intensive industries\" that consumed massive amounts of power for carbon capture, atmospheric purification, and even weather modification. The \"Fusion Climate Control Network\" could manipulate regional weather patterns, but this created new geopolitical tensions as nations competed for favorable climate conditions. Some regions experienced \"fusion microclimates\" where artificial weather systems created ideal growing conditions, leading to agricultural abundance but also new dependencies on energy infrastructure.\n\nBy 2100, Earth had achieved energy abundance, but the fusion revolution had also created new challenges. The \"Global Fusion Energy Council\" was established to manage energy distribution and prevent climate manipulation conflicts. While fusion energy had solved the immediate climate crisis, it had also taught humanity that technological solutions required careful governance and consideration of unintended consequences. The experience demonstrated that energy abundance, while beneficial, also required responsible management to ensure long-term sustainability."

/-- Pre-authored record `fbFusion` transcribed from the server source. -/
def fbFusion : FallbackScenario where
  theme := "A fusion-powered renaissance reshaping civilization\x27s energy landscape"
  alt_forecasts := JVal.obj [("global_temp_2100", JVal.num 18 1),
    ("death_toll_annual", JVal.num 180000 0),
    ("refugees", JVal.num 12000000 0),
    ("arable_land_loss_percent", JVal.num 8 0),
    ("population", JVal.num 9800000000 0),
    ("biodiversity_loss_percent", JVal.num 22 0),
    ("gdp_loss_percent", JVal.num 3 0)]
  narrative := "In this speculative future, humanity achieved what seemed impossible: commercial fusion energy became a reality. The breakthrough came not from massive government programs, but from a convergence of AI-assisted plasma physics, advanced materials science, and a desperate race against climate catastrophe.\n\nThe immediate effects were transformative. Within five years, fusion plants began replacing coal and gas facilities worldwide. Carbon emissions plummeted by 40% by 2030, buying humanity precious time to implement other climate solutions. The energy abundance sparked a new industrial revolution, with desalination plants proliferating along coastlines, turning arid regions into agricultural breadbaskets.\n\nYet the transition wasn\x27t without its challenges. The fossil fuel industry\x27s collapse created economic upheaval, while energy abundance led to new forms of consumption and waste. By 2100, global temperatures stabilized at 1.8°C above pre-industrial levels—still dangerous, but manageable. The fusion revolution had given humanity a fighting chance, though the deeper lesson was clear: technological breakthroughs alone couldn\x27t solve the complex web of social, economic, and environmental challenges that climate change had woven."

/-- Pre-authored record `fbDecarbonization` transcribed from the server source. -/
def fbDecarbonization : FallbackScenario where
  theme := "A rapid decarbonization revolution transforming global infrastructure"
  alt_forecasts := JVal.obj [("global_temp_2100", JVal.num 22 1),
    ("death_toll_annual", JVal.num 250000 0),
    ("refugees", JVal.num 15000000 0),
    ("arable_land_loss_percent", JVal.num 12 0),
    ("population", JVal.num 9500000000 0),
    ("biodiversity_loss_percent", JVal.num 28 0),
    ("gdp_loss_percent", JVal.num 5 0)]
  narrative := "The world witnessed an unprecedented mobilization of resources and political will as nations raced to achieve net-zero emissions. What began as ambitious targets in 2024 became reality through a combination of technological innovation, policy reform, and cultural transformation.\n\nRenewable energy infrastructure expanded exponentially, with solar and wind power becoming the dominant energy sources by 2040. Electric vehicles replaced internal combustion engines, while sustainable urban planning created walkable, carbon-neutral cities. The transition required massive investment but created millions of new jobs in green technology sectors.\n\nBy 2100, global temperatures had stabilized at 2.2°C above pre-industrial levels—still above the 1.5°C target but far below the worst-case scenarios. The rapid decarbonization had prevented catastrophic climate impacts, though adaptation challenges remained. The experience demonstrated that humanity could achieve remarkable change when motivated by existential threats."

/-- Pre-authored record `fbGeoengineering` transcribed from the server source. -/
def fbGeoengineering : FallbackScenario where
  theme := "A world where climate engineering becomes mainstream, for better or worse"
  alt_forecasts := JVal.obj [("global_temp_2100", JVal.num 19 1),
    ("death_toll_annual", JVal.num 200000 0),
    ("refugees", JVal.num 10000000 0),
    ("arable_land_loss_percent", JVal.num 10 0),
    ("population", JVal.num 9300000000 0),
    ("biodiversity_loss_percent", JVal.num 30 0),
    ("gdp_loss_percent", JVal.num 6 0)]
  narrative := "As traditional climate mitigation efforts proved insufficient, humanity turned to geoengineering as a last resort. Solar radiation management techniques, including stratospheric aerosol injection, became operational by 2040, creating a controversial but effective method of cooling the planet.\n\nThe immediate effects were dramatic—global temperatures began stabilizing within years of deployment. However, the technology brought new challenges: regional climate patterns shifted unpredictably, and the world faced difficult questions about who controlled the global thermostat. International governance frameworks struggled to keep pace with the technology\x27s deployment.\n\nBy 2100, temperatures had stabilized at 1.9°C above pre-industrial levels, but the world had learned that geoengineering was a double-edged sword. While it had prevented catastrophic warming, it had also created new dependencies and governance challenges. The experience taught humanity that technological solutions to climate change required careful consideration of unintended consequences."

/-- Pre-authored record `fbSuperman` transcribed from the server source. -/
def fbSuperman : FallbackScenario where
  theme := "A world where Superman\x27s intervention creates both salvation and new challenges, leading to a complex human-superhero society"
  alt_forecasts := JVal.obj [("global_temp_2100", JVal.num 18 1),
    ("death_toll_annual", JVal.num 180000 0),
    ("refugees", JVal.num 12000000 0),
    ("arable_land_loss_percent", JVal.num 8 0),
    ("population", JVal.num 9300000000 0),
    ("biodiversity_loss_percent", JVal.num 25 0),
    ("gdp_loss_percent", JVal.num 4 0)]
  narrative := "When Superman first appeared in 2025, his intervention in the climate crisis was immediate and dramatic. Using his heat vision to melt polar ice caps strategically, he created new water channels that prevented catastrophic flooding while his super-breath generated wind patterns that stabilized extreme weather events. Within months, global temperatures began stabilizing, and the Man of Steel became humanity\x27s greatest ally in the fight against climate change.\n\nHowever, Superman\x27s intervention created unexpected consequences that reshaped human society. His constant presence led to the emergence of \"super-dependency syndrome\" - a psychological condition where communities became overly reliant on his interventions rather than developing sustainable solutions. The \"Superman Effect\" also created new geopolitical tensions, as nations competed for his attention and protection. Some regions experienced \"super-climate zones\" where Superman\x27s interventions created microclimates that were too perfect, leading to the evolution of new species that couldn\x27t survive in natural conditions.\n\nBy 2100, humanity had learned to balance Superman\x27s help with sustainable development. The \"Superman Climate Institute\" was established to coordinate his interventions with human efforts, while \"super-farmers\" learned to cultivate crops in the unique conditions created by his climate stabilization. The experience taught humanity that even the most powerful allies couldn\x27t solve complex problems alone - cooperation between superhuman and human efforts was essential for long-term sustainability."

/-- Pre-authored record `fbTimeTravel` transcribed from the server source. -/
def fbTimeTravel : FallbackScenario where
  theme := "A temporal paradox where past interventions reshape the climate timeline, creating both salvation and unforeseen chaos"
  alt_forecasts := JVal.obj [("global_temp_2100", JVal.num 15 1),
    ("death_toll_annual", JVal.num 150000 0),
    ("refugees", JVal.num 8000000 0),
    ("arable_land_loss_percent", JVal.num 6 0),
    ("population", JVal.num 9200000000 0),
    ("biodiversity_loss_percent", JVal.num 18 0),
    ("gdp_loss_percent", JVal.num 2 0)]
  narrative := "The discovery of time travel technology in 2030 created an unprecedented opportunity to address climate change at its source. Teams of temporal engineers, equipped with quantum-stabilized chronometers, traveled back to key moments in history: 1985 (Chernobyl), 1992 (Rio Earth Summit), and 2008 (financial crisis). They implemented clean energy technologies decades before they were originally developed, creating a cascade of technological breakthroughs that rippled forward through time.\n\nThe immediate effects were dramatic - by 2040, global temperatures had stabilized at 1.5°C above pre-industrial levels, and carbon emissions plummeted by 60%. However, the temporal interventions created unforeseen consequences. The \"temporal pollution\" caused by multiple timeline alterations led to the emergence of \"chrono-storms\" - localized weather anomalies where past and present climate patterns collided. Some regions experienced unexpected climate patterns, with parts of the Sahara receiving monsoon rains while the Amazon experienced desertification.\n\nBy 2100, humanity had learned that while time travel could solve immediate problems, it created new challenges that required innovative solutions. The \"Temporal Climate Institute\" was established to monitor and manage chrono-storms, while \"temporal farmers\" learned to cultivate crops that thrived in the unique conditions created by timeline convergence. The experience taught humanity that the most sustainable solutions were those built in the present, not borrowed from the past."

/-- Pre-authored record `fbGeneric` transcribed from the server source. -/
def fbGeneric : FallbackScenario where
  theme := "A future where human ingenuity and cooperation overcome climate challenges, but not without unexpected consequences and new frontiers"
  alt_forecasts := JVal.obj [("global_temp_2100", JVal.num 25 1),
    ("death_toll_annual", JVal.num 350000 0),
    ("refugees", JVal.num 20000000 0),
    ("arable_land_loss_percent", JVal.num 15 0),
    ("population", JVal.num 9000000000 0),
    ("biodiversity_loss_percent", JVal.num 35 0),
    ("gdp_loss_percent", JVal.num 7 0)]
  narrative := "This speculative future envisions a world where humanity successfully navigates the climate crisis through a combination of technological innovation, policy reform, and cultural adaptation. The breakthrough came in 2035 when a consortium of scientists, engineers, and indigenous knowledge keepers developed \"bio-synthetic fusion\" - a revolutionary energy system that combined nuclear fusion with genetically engineered algae that could convert atmospheric CO2 into oxygen while producing clean energy.\n\nThe immediate effects were transformative. By 2040, carbon emissions had plummeted by 70%, and the \"Great Carbon Sequestration\" began reversing centuries of atmospheric pollution. However, the rapid deployment of bio-synthetic fusion created unexpected consequences. The genetically modified algae began evolving independently, creating new ecosystems in previously uninhabitable regions. Some areas experienced \"oxygen blooms\" that made the air too rich for traditional agriculture, while others saw the emergence of \"carbon forests\" - dense groves of CO2-absorbing trees that grew at unprecedented rates.\n\nBy 2100, global temperatures had stabilized at 2.5°C above pre-industrial levels—still dangerous but manageable. The experience had fundamentally changed how humanity viewed its relationship with the natural world, leading to the emergence of \"eco-cities\" where human settlements were integrated with the new bio-synthetic ecosystems. While the climate crisis had been severe, it had also catalyzed a new era of human-nature symbiosis, though not without the challenges of managing an increasingly complex and interconnected planetary system."

/-- The seed scenario of `server/database.js`; `alt_forecasts` is inserted
as `JSON.stringify` of the literal object. -/
def seedAltForecasts : JVal := JVal.obj [("global_temp_2100", JVal.num 18 1),
    ("death_toll_annual", JVal.num 180000 0),
    ("refugees", JVal.num 12000000 0),
    ("arable_land_loss_percent", JVal.num 8 0),
    ("population", JVal.num 9800000000 0),
    ("biodiversity_loss_percent", JVal.num 22 0),
    ("gdp_loss_percent", JVal.num 3 0)]

def seedUserInput : String := "What if we master fusion energy before 2025?"

def seedTheme : String := "A fusion-powered renaissance reshaping civilization\x27s energy landscape"

def seedNarrative : String := "In 2025, humanity achieved what seemed impossible: commercial fusion energy became a reality. The breakthrough came not from massive government programs, but from a convergence of AI-assisted plasma physics, advanced materials science, and a desperate race against climate catastrophe.\n\nThe immediate effects were transformative. Within five years, fusion plants began replacing coal and gas facilities worldwide. Carbon emissions plummeted by 40% by 2030, buying humanity precious time to implement other climate solutions. The energy abundance sparked a new industrial revolution, with desalination plants proliferating along coastlines, turning arid regions into agricultural breadbaskets.\n\nYet the transition wasn\x27t without its challenges. The fossil fuel industry\x27s collapse created economic upheaval, while energy abundance led to new forms of consumption and waste. By 2100, global temperatures stabilized at 1.8°C above pre-industrial levels—still dangerous, but manageable. The fusion revolution had given humanity a fighting chance, though the deeper lesson was clear: technological breakthroughs alone couldn\x27t solve the complex web of social, economic, and environmental challenges that climate change had woven."

/-- `createUniqueScenarioFromInput` (part_002 lines 369–459): first match
wins over the lower-cased input; an explicit thrown error when no keyword
class matches. -/
def createUniqueScenarioFromInput (userInput : String) : Except String FallbackScenario :=
  let inputLower := jsToLower userInput
  if containsSub inputLower "superman" || containsSub inputLower "hero"
      || containsSub inputLower "superhero" then
    Except.ok uniqueSuperman
  else if containsSub inputLower "time travel" || containsSub inputLower "time machine" then
    Except.ok uniqueTimeTravel
  else if containsSub inputLower "alien" || containsSub inputLower "extraterrestrial"
      || containsSub inputLower "ufo" then
    Except.ok uniqueAlien
  else if containsSub inputLower "fusion" || containsSub inputLower "nuclear"
      || containsSub inputLower "energy" then
    Except.ok uniqueFusion
  else
    Except.error ("Failed to generate AI scenario for: \"" ++ userInput
      ++ "\". The AI system is not working properly. Please try again or contact support.")

/-- `generateFallbackScenario` (part_002 lines 462–576): first match wins
over the lower-cased input; a generic optimistic scenario when no keyword
class matches. -/
def generateFallbackScenario (userInput : String) : FallbackScenario :=
  let input := jsToLower userInput
  if containsSub input "fusion" || containsSub input "energy" then fbFusion
  else if containsSub input "net-zero" || containsSub input "emissions"
      || containsSub input "carbon" then fbDecarbonization
  else if containsSub input "geoengineering" || containsSub input "climate engineering" then
    fbGeoengineering
  else if containsSub input "superman" || containsSub input "hero"
      || containsSub input "superhero" then fbSuperman
  else if containsSub input "time travel" || containsSub input "time machine" then fbTimeTravel
  else fbGeneric

/-! ### Server routes (part_002) and the node-sqlite3 driver -/

/-- Outcome of the external completion call (opaque boundary): the service
either fails (network/timeout/provider error) or yields free text. -/
inductive CompletionOutcome where
  | unavailable (msg : String)
  | ok (text : String)

/-- `generateScenario` (part_002 lines 325–364) given the completion
outcome: on success the two-phase parse of the trimmed text runs; every
error thrown inside the `try` — including the parse diagnostics — is
rewrapped by the outer catch as `OpenAI API error: ...` and rethrown.  The
prompt construction (lines 263–323) is pure string assembly whose content
the control flow never inspects; it is not modelled. -/
def generateScenario (completion : CompletionOutcome) : Except String JVal :=
  match completion with
  | .unavailable msg => Except.error ("OpenAI API error: " ++ msg)
  | .ok text =>
    match parseCompletion text with
    | .ok v => Except.ok v
    | .error e => Except.error ("OpenAI API error: " ++ e)

/-- A row of the `scenarios` table.  `theme`/`narrative` hold whatever the
parsed completion object carried (`none` models a missing property, i.e.
JavaScript `undefined`); `alt_forecasts` is the serialized column text;
`created_at` is `none` when left to the column's `CURRENT_TIMESTAMP`
default. -/
structure ScenarioRow where
  user_input : String
  theme : Option JVal
  alt_forecasts : Option String
  narrative : Option JVal
  created_at : Option String

/-- Response of `POST /api/scenarios` (part_002 lines 162–170): either the
spread of the parsed completion object together with `id: result.lastID`
and `userInput`, or the catch-all `500` error payload.  `id` is `none`
because node-sqlite3's `Statement.run` returns the `Statement` object,
which has no `lastID` property (`lastID` exists only on the `this` of a
run callback, and no callback is passed), so `result.lastID` is
`undefined`.  No `created_at` and no `user_input` field exists in this
response. -/
inductive ApiResult where
  | created (id : Option Nat) (theme alt_forecasts narrative : Option JVal) (userInput : String)
  | failure (status : Nat) (error : String)

/-- `POST /api/scenarios` (part_002 lines 125–171): run generation, insert
the row, echo the parsed object; any thrown error becomes the 500 payload.
No validation of `userInput` happens anywhere in the route. -/
def postScenarios (userInput : String) (completion : CompletionOutcome)
    (db : List ScenarioRow) (now : String) : List ScenarioRow × ApiResult :=
  match generateScenario completion with
  | .error _ => (db, ApiResult.failure 500 "Failed to create scenario")
  | .ok v =>
    let row : ScenarioRow :=
      { user_input := userInput
        theme := v.getField "theme"
        alt_forecasts := (v.getField "alt_forecasts").map (fun a => String.mk (serializeJVal a))
        narrative := v.getField "narrative"
        created_at := some now }
    (db ++ [row],
      ApiResult.created none (v.getField "theme") (v.getField "alt_forecasts")
        (v.getField "narrative") userInput)

/-- What a node-sqlite3 `Statement.all` / `Statement.get` call can hand
back to the caller: the row(s), or — when no callback is supplied, as in
this server — the `Statement` object itself, since the driver runs the
query asynchronously and returns `this` for chaining. -/
inductive SqliteRetval where
  | statementObj
  | rows (l : List ScenarioRow)
  | row (r : ScenarioRow)

/-- `stmt.all()` with no callback: the query result is delivered only to a
callback that does not exist; the call returns the `Statement`. -/
def stmtAllNoCallback (_db : List ScenarioRow) : SqliteRetval := SqliteRetval.statementObj

/-- `stmt.get(id)` with no callback: likewise returns the `Statement`. -/
def stmtGetNoCallback (_db : List ScenarioRow) (_id : Nat) : SqliteRetval :=
  SqliteRetval.statementObj

/-- `Array.isArray` on the fetched value. -/
def SqliteRetval.isArray : SqliteRetval → Bool
  | .rows _ => true
  | _ => false

/-- `GET /api/scenarios` (part_002 lines 112–122): `scenarios` is the
value of `stmt.all()`; if it is not an array the route answers `[]`. -/
def apiScenariosGet (db : List ScenarioRow) : List ScenarioRow :=
  let scenarios := stmtAllNoCallback db
  if scenarios.isArray then
    match scenarios with
    | .rows l => l
    | _ => []
  else []

/-- Response of `GET /api/scenarios/:id`. -/
inductive GetByIdResult where
  | found (user_input : String) (theme : Option JVal) (alt_forecasts : JVal)
      (narrative : Option JVal) (created_at : Option String)
  | notFound
  | serverError

/-- `GET /api/scenarios/:id` (part_002 lines 174–184): `scenario` is the
value of `stmt.get(id)`.  The `Statement` object is truthy, so the route
enters the found-branch and evaluates `JSON.parse(scenario.alt_forecasts)`
where the property is `undefined`; `JSON.parse(undefined)` throws and
Express answers with a server error.  The `.row` branch is the
intended synchronous reading of the same lines, unreachable under this
driver. -/
def apiScenarioById (db : List ScenarioRow) (id : Nat) : GetByIdResult :=
  match stmtGetNoCallback db id with
  | .statementObj => GetByIdResult.serverError
  | .rows _ => GetByIdResult.serverError
  | .row r =>
    match r.alt_forecasts with
    | none => GetByIdResult.serverError
    | some s =>
      match jsonDecode s with
      | some v => GetByIdResult.found r.user_input r.theme v r.narrative r.created_at
      | none => GetByIdResult.serverError

/-! ### Database seeding (`server/database.js`) -/

/-- The row the seed inserts; `created_at` is left to the column default. -/
def seedRow : ScenarioRow :=
  { user_input := seedUserInput
    theme := some (JVal.str seedTheme)
    alt_forecasts := some (String.mk (serializeJVal seedAltForecasts))
    narrative := some (JVal.str seedNarrative)
    created_at := none }

/-- `initDatabase`: create the table if needed, then insert the seed
scenario only when no row with the seed's `user_input` exists. -/
def initDatabase (table : List ScenarioRow) : List ScenarioRow :=
  if table.any (fun r => r.user_input == seedUserInput) then table else table ++ [seedRow]

/-! ### Request normalization (`POST /api/scenarios`, lines 127–143) -/

structure YearValue where
  year : Int
  value : Rat

structure BaselineSeries where
  current : Rat
  forecast : List YearValue

structure BaselineData where
  global_temp : BaselineSeries
  carbon_emissions : BaselineSeries
  sea_level_rise : BaselineSeries
  forest_loss : BaselineSeries

structure HumanImpactsData where
  death_toll_annual : Rat
  population : Rat
  arable_land_loss_percent : Rat
  refugees : Rat
  gdp_loss_percent : Rat
  biodiversity_loss_percent : Rat

/-- The request body of `POST /api/scenarios`; absent overrides are
`none`. -/
structure ScenarioRequest where
  userInput : String
  baselineData : Option BaselineData
  humanImpacts : Option HumanImpactsData

/-- The default baseline substituted by `baseline || {...}` (lines
130–135). -/
def defaultBaselineData : BaselineData where
  global_temp := { current := 11/10, forecast := [] }
  carbon_emissions := { current := 385/10, forecast := [] }
  sea_level_rise := { current := 22/100, forecast := [] }
  forest_loss := { current := 15, forecast := [] }

/-- The default impact snapshot substituted by `impacts || {...}` (lines
136–143). -/
def defaultHumanImpacts : HumanImpactsData where
  death_toll_annual := 500000
  population := 8100000000
  arable_land_loss_percent := 15
  refugees := 25000000
  gdp_loss_percent := 8
  biodiversity_loss_percent := 30

/-- `const baselineData = baseline || {...}`. -/
def effectiveBaseline (req : ScenarioRequest) : BaselineData :=
  req.baselineData.getD defaultBaselineData

/-- `const humanImpacts = impacts || {...}`. -/
def effectiveImpacts (req : ScenarioRequest) : HumanImpactsData :=
  req.humanImpacts.getD defaultHumanImpacts

/-! ### Forecast interpolation (`Dashboard.tsx`, `generateSpeculativeForecast`) -/

/-- `progress = (year - currentYear) / (endYear - currentYear)` with
`endYear = 2100`. -/
def progressAt (currentYear year : Int) : Rat :=
  ((year - currentYear : Int) : Rat) / ((2100 - currentYear : Int) : Rat)

/-- The decade-sampled years `currentYear, currentYear+10, …` up to 2100. -/
def forecastYears (currentYear : Int) : List Int :=
  if currentYear ≤ 2100 then
    (List.range ((2100 - currentYear).toNat / 10 + 1)).map (fun i => currentYear + 10 * (i : Int))
  else []

/-- JavaScript `x || y` on an optionally-present number: `undefined` and
`0` both fall back. -/
def jsOrQ (x : Option Rat) (y : Rat) : Rat :=
  match x with
  | some v => if v = 0 then y else v
  | none => y

/-- `constrainedTargetTemp = Math.max(targetTemp, currentTemp + 1.5)`. -/
def constrainedTargetTemp (currentTemp targetTemp : Rat) : Rat :=
  max targetTemp (currentTemp + 3/2)

/-- The temperature curve value at one year; `tip` is the sampled
`Math.random() * 0.3` perturbation, made an explicit parameter. -/
def speculativeTempAt (currentYear : Int) (currentTemp targetTemp tip : Rat) (year : Int) : Rat :=
  currentTemp + (constrainedTargetTemp currentTemp targetTemp - currentTemp)
    * progressAt currentYear year + tip

structure ForecastPoint where
  year : Int
  baseline : Rat
  speculative : Rat

/-- `tempForecast` (Dashboard.tsx lines 547–573): one point per sampled
year, pairing the baseline value looked up by index (falling back to the
current value) with the constrained speculative value. -/
def tempForecast (baseline : BaselineSeries) (currentYear : Int) (targetTemp : Rat)
    (tip : Nat → Rat) : List ForecastPoint :=
  (forecastYears currentYear).enum.map (fun p =>
    { year := p.2
      baseline := jsOrQ ((baseline.forecast.get? p.1).map (fun yv => yv.value)) baseline.current
      speculative := speculativeTempAt currentYear baseline.current targetTemp (tip p.1) p.2 })

/-- `targetEmissions` of the no-AI-target branch (lines 596–597). -/
def emissionsFallbackTarget (currentEmissions temp2100 : Rat) : Rat :=
  let minEmissions := currentEmissions * (15/100)
  max (if temp2100 < 2 then minEmissions else minEmissions * 2) minEmissions

/-- `deploymentDelay = Math.max(0, (year - currentYear) / 20)` (line 600). -/
def deploymentDelay (currentYear year : Int) : Rat :=
  max 0 (((year - currentYear : Int) : Rat) / 20)

/-- The emissions curve value at one year (lines 576–609): the AI target
is used directly when present; otherwise the floored fallback target with
the deployment-lag-adjusted progress. -/
def speculativeEmissionsAt (currentYear : Int) (currentEmissions : Rat)
    (aiTarget : Option Rat) (temp2100 : Rat) (year : Int) : Rat :=
  match aiTarget with
  | some t => currentEmissions + (t - currentEmissions) * progressAt currentYear year
  | none =>
    let target := emissionsFallbackTarget currentEmissions temp2100
    currentEmissions + (target - currentEmissions)
      * min (progressAt currentYear year + deploymentDelay currentYear year) 1

/-- `emissionsForecast` (lines 576–609) as a list of points. -/
def emissionsForecast (baseline : BaselineSeries) (currentYear : Int)
    (aiTarget : Option Rat) (temp2100 : Rat) : List ForecastPoint :=
  (forecastYears currentYear).enum.map (fun p =>
    { year := p.2
      baseline := jsOrQ ((baseline.forecast.get? p.1).map (fun yv => yv.value)) baseline.current
      speculative := speculativeEmissionsAt currentYear baseline.current aiTarget temp2100 p.2 })

/-- The `alt_forecasts` example values shown in the prompt's JSON template
(part_002 lines 300–310); used as the concrete well-formed record. -/
def promptExampleFields : List (String × JVal) :=
  [("global_temp_2100", JVal.num 21 1), ("carbon_emissions_2100", JVal.num 125 1),
   ("sea_level_rise_2100", JVal.num 85 2), ("death_toll_annual", JVal.num 350000 0),
   ("refugees", JVal.num 18000000 0), ("arable_land_loss_percent", JVal.num 12 0),
   ("population", JVal.num 9200000000 0), ("biodiversity_loss_percent", JVal.num 22 0),
   ("gdp_loss_percent", JVal.num 7 0)]

/-- A small well-formed completion object used as a concrete test input. -/
def sampleScenarioJVal : JVal :=
  JVal.obj [("theme", JVal.str "A fusion test theme"),
    ("alt_forecasts", JVal.obj promptExampleFields),
    ("narrative", JVal.str "A short narrative.")]

/-- Whether a creation response is the success shape. -/
def ApiResult.isCreated : ApiResult → Bool
  | .created _ _ _ _ _ => true
  | .failure _ _ => false

/-- Every keyword `createUniqueScenarioFromInput` tests, in source order. -/
def createUniqueKeywords : List String :=
  ["superman", "hero", "superhero", "time travel", "time machine", "alien", "extraterrestrial",
   "ufo", "fusion", "nuclear", "energy"]

/-- Every keyword `generateFallbackScenario` tests, in source order. -/
def generateFallbackKeywords : List String :=
  ["fusion", "energy", "net-zero", "emissions", "carbon", "geoengineering",
   "climate engineering", "superman", "hero", "superhero", "time travel", "time machine"]

instance keyOk.decidable (s : String) : Decidable (keyOk s) := by
  unfold keyOk
  infer_instance

/-! ## Theorems -/

/-! ### Digit lemmas -/

theorem isDigitChar_digitChar (d : Nat) (h : d < 10) : isDigitChar (digitChar d) = true := by
  interval_cases d <;> decide

theorem digitVal_digitChar (d : Nat) (h : d < 10) : digitVal (digitChar d) = d := by
  interval_cases d <;> decide

theorem natDigitsAux_all_digits (fuel n : Nat) :
    ∀ c ∈ natDigitsAux fuel n, isDigitChar c = true := by
  induction fuel generalizing n with
  | zero => intro c hc; simp [natDigitsAux] at hc
  | succ fuel ih =>
    intro c hc
    by_cases h0 : n = 0
    · simp [natDigitsAux, h0] at hc
    · simp only [natDigitsAux, if_neg h0, List.mem_append, List.mem_singleton] at hc
      rcases hc with hc | hc
      · exact ih _ c hc
      · subst hc; exact isDigitChar_digitChar _ (Nat.mod_lt _ (by norm_num))

theorem natDigits_all_digits (n : Nat) : ∀ c ∈ natDigits n, isDigitChar c = true := by
  intro c hc
  by_cases h0 : n = 0
  · simp [natDigits, h0] at hc; subst hc; decide
  · simpa [natDigits, h0] using natDigitsAux_all_digits n n c (by simpa [natDigits, h0] using hc)

theorem natDigitsPad_all_digits (e n : Nat) : ∀ c ∈ natDigitsPad e n, isDigitChar c = true := by
  intro c hc
  simp only [natDigitsPad, List.mem_append, List.mem_replicate] at hc
  rcases hc with ⟨-, hc⟩ | hc
  · subst hc; decide
  · exact natDigits_all_digits n c hc

theorem foldl_digits_natDigitsAux (fuel : Nat) :
    ∀ n acc, n ≤ fuel →
      List.foldl (fun a c => a * 10 + digitVal c) acc (natDigitsAux fuel n)
        = acc * 10 ^ (natDigitsAux fuel n).length + n := by
  induction fuel with
  | zero => intro n acc h; interval_cases n; simp [natDigitsAux]
  | succ fuel ih =>
    intro n acc h
    by_cases h0 : n = 0
    · simp [natDigitsAux, h0]
    · have hdiv : n / 10 ≤ fuel :=
        Nat.le_of_lt_succ (Nat.lt_of_lt_of_le (Nat.div_lt_self (Nat.pos_of_ne_zero h0) (by norm_num)) h)
      simp only [natDigitsAux, if_neg h0, List.foldl_append, List.foldl_cons, List.foldl_nil,
        List.length_append, List.length_singleton]
      rw [ih (n / 10) acc hdiv]
      rw [digitVal_digitChar _ (Nat.mod_lt _ (by norm_num))]
      have : acc * 10 ^ ((natDigitsAux fuel (n / 10)).length + 1)
          = acc * 10 ^ (natDigitsAux fuel (n / 10)).length * 10 := by ring
      rw [this]
      have := Nat.div_add_mod n 10
      omega

theorem digitsVal_natDigits (n : Nat) : digitsVal (natDigits n) = n := by
  by_cases h0 : n = 0
  · simp [digitsVal, natDigits, h0]; decide
  · simp only [digitsVal, natDigits, if_neg h0]
    rw [foldl_digits_natDigitsAux n n 0 (le_refl n)]
    simp

theorem foldl_digits_replicate_zero (k : Nat) :
    List.foldl (fun a c => a * 10 + digitVal c) 0 (List.replicate k (digitChar 0)) = 0 := by
  induction k with
  | zero => simp
  | succ k ih => simpa [List.replicate_succ] using ih

theorem foldl_digits_append (xs ys : List Char) (acc : Nat) :
    List.foldl (fun a c => a * 10 + digitVal c) acc (xs ++ ys)
      = List.foldl (fun a c => a * 10 + digitVal c) (List.foldl (fun a c => a * 10 + digitVal c) acc xs) ys := by
  simp [List.foldl_append]

theorem digitsVal_natDigitsPad (e n : Nat) : digitsVal (natDigitsPad e n) = n := by
  simp only [digitsVal, natDigitsPad, foldl_digits_append, foldl_digits_replicate_zero]
  exact digitsVal_natDigits n

theorem natDigitsAux_length_le (fuel : Nat) :
    ∀ n k, n ≤ fuel → n < 10 ^ k → (natDigitsAux fuel n).length ≤ k := by
  induction fuel with
  | zero => intro n k h _; interval_cases n; simp [natDigitsAux]
  | succ fuel ih =>
    intro n k h hk
    by_cases h0 : n = 0
    · simp [natDigitsAux, h0]
    · have hkpos : k ≠ 0 := by
        intro hk0; subst hk0; simp at hk; omega
      obtain ⟨k', rfl⟩ := Nat.exists_eq_succ_of_ne_zero hkpos
      have hdiv : n / 10 ≤ fuel :=
        Nat.le_of_lt_succ (Nat.lt_of_lt_of_le (Nat.div_lt_self (Nat.pos_of_ne_zero h0) (by norm_num)) h)
      have hdivk : n / 10 < 10 ^ k' := by
        rw [Nat.div_lt_iff_lt_mul (by norm_num)]
        calc n < 10 ^ (k' + 1) := hk
        _ = 10 ^ k' * 10 := by ring
      simp only [natDigitsAux, if_neg h0, List.length_append, List.length_singleton]
      have := ih (n / 10) k' hdiv hdivk
      omega

theorem natDigitsPad_length (e n : Nat) (h : n < 10 ^ e) (he : 0 < e) :
    (natDigitsPad e n).length = e := by
  have hle : (natDigits n).length ≤ e := by
    by_cases h0 : n = 0
    · simp [natDigits, h0]; omega
    · simp only [natDigits, if_neg h0]
      exact natDigitsAux_length_le n n e (le_refl n) h
  simp only [natDigitsPad, List.length_append, List.length_replicate]
  omega

theorem natDigits_ne_nil (n : Nat) : natDigits n ≠ [] := by
  by_cases h0 : n = 0
  · simp [natDigits, h0]
  · simp only [natDigits, if_neg h0]
    intro hnil
    have := digitsVal_natDigits n
    rw [natDigits, if_neg h0, hnil] at this
    simp [digitsVal] at this
    exact h0 this.symm

/-! ### Character-class lemmas -/

theorem digit_ne {c : Char} (x : Char) (hx : isDigitChar x = false)
    (h : isDigitChar c = true) : c ≠ x := by
  intro hcx; rw [hcx, hx] at h; exact absurd h (by decide)

theorem digit_not_ws {c : Char} (h : isDigitChar c = true) : isWsChar c = false := by
  cases hw : isWsChar c
  · rfl
  · exfalso
    have hws : ((c = ' ' ∨ c = '\n') ∨ c = '\t') ∨ c = '\r' := by
      simpa [isWsChar, decide_eq_true_eq] using hw
    rcases hws with ((rfl | rfl) | rfl) | rfl <;> simp [isDigitChar] at h

theorem takeDigits_spec (ds : List Char) :
    ∀ (rest : List Char) (acc cnt : Nat),
      (∀ c ∈ ds, isDigitChar c = true) → restNotDigit rest →
      takeDigits (ds ++ rest) acc cnt
        = (List.foldl (fun a c => a * 10 + digitVal c) acc ds, cnt + ds.length, rest) := by
  induction ds with
  | nil =>
    intro rest acc cnt _ hrest
    cases rest with
    | nil => simp [takeDigits]
    | cons c l' => simp [takeDigits, hrest c l' rfl]
  | cons d ds ih =>
    intro rest acc cnt hall hrest
    have hd : isDigitChar d = true := hall d (List.mem_cons_self d ds)
    simp only [List.cons_append, takeDigits, hd, if_true, List.append_eq]
    rw [ih rest (acc * 10 + digitVal d) (cnt + 1)
      (fun c hc => hall c (List.mem_cons_of_mem d hc)) hrest]
    simp only [List.foldl_cons, List.length_cons]
    have h2 : cnt + 1 + ds.length = cnt + (ds.length + 1) := by omega
    rw [h2]

theorem takeDigits_consumed (l : List Char) :
    ∀ acc cnt v k rest, takeDigits l acc cnt = (v, k, rest) →
      ∃ pre, l = pre ++ rest ∧ ∀ c ∈ pre, isDigitChar c = true := by
  induction l with
  | nil =>
    intro acc cnt v k rest h
    simp only [takeDigits, Prod.mk.injEq] at h
    exact ⟨[], by simp [h.2.2], by simp⟩
  | cons c r ih =>
    intro acc cnt v k rest h
    by_cases hc : isDigitChar c = true
    · simp only [takeDigits, hc, if_true] at h
      obtain ⟨pre, hpre, hall⟩ := ih _ _ _ _ _ h
      refine ⟨c :: pre, by simp [hpre], ?_⟩
      intro x hx
      rcases List.mem_cons.mp hx with rfl | hx
      · exact hc
      · exact hall x hx
    · rw [Bool.not_eq_true] at hc
      simp only [takeDigits, hc, Bool.false_eq_true, if_false, Prod.mk.injEq] at h
      refine ⟨[], ?_, by simp⟩
      simp [h.2.2]

theorem numContOk.toRestNotDigit {rest : List Char} (h : numContOk rest) : restNotDigit rest :=
  fun c l' hc => (h c l' hc).1

theorem parseExpTail_numContOk (m : Int) (e : Nat) (rest : List Char) (h : numContOk rest) :
    parseExpTail m e rest = some ((m, e), rest) := by
  cases rest with
  | nil => rfl
  | cons c l' =>
    have hc := h c l' rfl
    simp [parseExpTail, hc.2.2.1, hc.2.2.2]

theorem parseNumCore_int (neg : Bool) (n : Nat) (rest : List Char) (hrest : numContOk rest) :
    parseNumCore neg (natDigits n ++ rest) = some ((signApply neg n, 0), rest) := by
  obtain ⟨d, ds, hds⟩ : ∃ d ds, natDigits n = d :: ds := by
    cases h : natDigits n with
    | nil => exact absurd h (natDigits_ne_nil n)
    | cons d ds => exact ⟨d, ds, rfl⟩
  have hd : isDigitChar d = true :=
    natDigits_all_digits n d (by rw [hds]; exact List.mem_cons_self d ds)
  have htake : takeDigits (natDigits n ++ rest) 0 0
      = (digitsVal (natDigits n), 0 + (natDigits n).length, rest) :=
    takeDigits_spec (natDigits n) rest 0 0 (natDigits_all_digits n) hrest.toRestNotDigit
  rw [hds] at htake
  simp only [List.cons_append] at htake
  rw [hds]
  simp only [List.cons_append, parseNumCore, hd, if_true, htake, digitsVal]
  rw [show List.foldl (fun a c => a * 10 + digitVal c) 0 (d :: ds) = digitsVal (d :: ds) from rfl]
  rw [← hds, digitsVal_natDigits]
  cases rest with
  | nil => rfl
  | cons c l' =>
    have hc := hrest c l' rfl
    simp [hc.2.1, parseExpTail_numContOk _ _ (c :: l') hrest]

theorem parseNumCore_frac (neg : Bool) (n e : Nat) (he : 0 < e) (rest : List Char)
    (hrest : numContOk rest) :
    parseNumCore neg (natDigits (n / 10 ^ e) ++ '.' :: (natDigitsPad e (n % 10 ^ e) ++ rest))
      = some ((signApply neg n, e), rest) := by
  obtain ⟨d, ds, hds⟩ : ∃ d ds, natDigits (n / 10 ^ e) = d :: ds := by
    cases h : natDigits (n / 10 ^ e) with
    | nil => exact absurd h (natDigits_ne_nil _)
    | cons d ds => exact ⟨d, ds, rfl⟩
  have hd : isDigitChar d = true :=
    natDigits_all_digits _ d (by rw [hds]; exact List.mem_cons_self d ds)
  have hmod : n % 10 ^ e < 10 ^ e := Nat.mod_lt _ (Nat.pos_pow_of_pos e (by norm_num))
  have hpadlen : (natDigitsPad e (n % 10 ^ e)).length = e := natDigitsPad_length e _ hmod he
  obtain ⟨p, ps, hps⟩ : ∃ p ps, natDigitsPad e (n % 10 ^ e) = p :: ps := by
    cases h : natDigitsPad e (n % 10 ^ e) with
    | nil => rw [h] at hpadlen; simp at hpadlen; omega
    | cons p ps => exact ⟨p, ps, rfl⟩
  have hp : isDigitChar p = true :=
    natDigitsPad_all_digits e _ p (by rw [hps]; exact List.mem_cons_self p ps)
  have htake1 : takeDigits (natDigits (n / 10 ^ e) ++ '.' :: (natDigitsPad e (n % 10 ^ e) ++ rest)) 0 0
      = (digitsVal (natDigits (n / 10 ^ e)), 0 + (natDigits (n / 10 ^ e)).length,
          '.' :: (natDigitsPad e (n % 10 ^ e) ++ rest)) :=
    takeDigits_spec _ _ 0 0 (natDigits_all_digits _)
      (by intro c l' hc; injection hc with h1 _; rw [← h1]; decide)
  have htake2 : takeDigits (natDigitsPad e (n % 10 ^ e) ++ rest) 0 0
      = (digitsVal (natDigitsPad e (n % 10 ^ e)), 0 + (natDigitsPad e (n % 10 ^ e)).length, rest) :=
    takeDigits_spec _ _ 0 0 (natDigitsPad_all_digits e _) hrest.toRestNotDigit
  rw [hds] at htake1
  simp only [List.cons_append] at htake1
  rw [hds]
  simp only [List.cons_append, parseNumCore, hd, if_true, htake1, if_pos rfl]
  rw [hps] at htake2
  simp only [List.cons_append] at htake2
  rw [hps]
  simp only [List.cons_append, hp, if_true, htake2]
  rw [parseExpTail_numContOk _ _ rest hrest]
  rw [show (p :: ps : List Char) = natDigitsPad e (n % 10 ^ e) from hps.symm,
    show (d :: ds : List Char) = natDigits (n / 10 ^ e) from hds.symm]
  simp only [Nat.zero_add, hpadlen]
  rw [digitsVal_natDigits, digitsVal_natDigitsPad, Nat.mul_comm, Nat.div_add_mod]

/-! ### List and string helpers -/

theorem dropWhile_cons_false {p : Char → Bool} {c : Char} (l : List Char) (h : p c = false) :
    List.dropWhile p (c :: l) = c :: l := by
  simp [List.dropWhile, h]

theorem takeWhile_append_all {p : Char → Bool} (xs : List Char) :
    ∀ ys, (∀ x ∈ xs, p x = true) → List.takeWhile p (xs ++ ys) = xs ++ List.takeWhile p ys := by
  induction xs with
  | nil => intro ys _; simp
  | cons x xs ih =>
    intro ys hall
    have hx : p x = true := hall x (List.mem_cons_self x xs)
    simp only [List.cons_append, List.takeWhile_cons, hx, if_true]
    rw [ih ys (fun c hc => hall c (List.mem_cons_of_mem x hc))]

theorem dropWhile_append_all {p : Char → Bool} (xs : List Char) :
    ∀ ys, (∀ x ∈ xs, p x = true) → List.dropWhile p (xs ++ ys) = List.dropWhile p ys := by
  induction xs with
  | nil => intro ys _; simp
  | cons x xs ih =>
    intro ys hall
    have hx : p x = true := hall x (List.mem_cons_self x xs)
    simp only [List.cons_append, List.dropWhile_cons, hx, if_true]
    exact ih ys (fun c hc => hall c (List.mem_cons_of_mem x hc))

theorem dropWhile_append_cons_false {p : Char → Bool} (xs : List Char) {y : Char} (ys : List Char)
    (hall : ∀ x ∈ xs, p x = true) (hy : p y = false) :
    List.dropWhile p (xs ++ y :: ys) = y :: ys := by
  rw [dropWhile_append_all xs (y :: ys) hall, dropWhile_cons_false ys hy]

theorem mem_of_mem_dropWhile {p : Char → Bool} {c : Char} (l : List Char)
    (h : c ∈ List.dropWhile p l) : c ∈ l := by
  induction l with
  | nil => simp at h
  | cons x xs ih =>
    by_cases hx : p x = true
    · simp only [List.dropWhile_cons, hx, if_true] at h
      exact List.mem_cons_of_mem x (ih h)
    · rw [Bool.not_eq_true] at hx
      rw [dropWhile_cons_false xs hx] at h
      exact h

theorem dropWhile_head_false {p : Char → Bool} (l : List Char) {c : Char} {cs : List Char}
    (h : List.dropWhile p l = c :: cs) : p c = false := by
  induction l with
  | nil => simp at h
  | cons x xs ih =>
    by_cases hx : p x = true
    · simp only [List.dropWhile_cons, hx, if_true] at h
      exact ih h
    · rw [Bool.not_eq_true] at hx
      rw [dropWhile_cons_false xs hx] at h
      injection h with h1 _
      rw [← h1]; exact hx

theorem skipWs_ne_nil_of_mem {c : Char} (l : List Char) (hc : c ∈ l) (hw : isWsChar c = false) :
    skipWs l ≠ [] := by
  induction l with
  | nil => simp at hc
  | cons x xs ih =>
    by_cases hx : isWsChar x = true
    · have hcx : c ∈ xs := by
        rcases List.mem_cons.mp hc with rfl | h
        · rw [hx] at hw; exact absurd hw (by decide)
        · exact h
      simpa [skipWs, List.dropWhile_cons, hx] using ih hcx
    · rw [Bool.not_eq_true] at hx
      simp [skipWs, dropWhile_cons_false xs hx]

theorem string_mk_data (s : String) : String.mk s.data = s := rfl

theorem string_data_append (s t : String) : (s ++ t).data = s.data ++ t.data := rfl

theorem parseStrBody_closed (s : String) (rest : List Char) (hs : keyOk s) :
    parseStrBody (s.data ++ dquote :: rest) = some (s, rest) := by
  have hall : ∀ c ∈ s.data, (!(decide (c = dquote) || decide (c = bslash))) = true := by
    intro c hc
    have h := hs c hc
    simp [h.1, h.2]
  have hbody : List.takeWhile (fun c => !(decide (c = dquote) || decide (c = bslash)))
      (s.data ++ dquote :: rest) = s.data := by
    rw [takeWhile_append_all s.data (dquote :: rest) hall]
    simp [List.takeWhile_cons]
  simp only [parseStrBody, hbody]
  rw [List.drop_left]
  simp [string_mk_data]

/-! ### `parseNum` and `parseVal` on serialized numerals -/

theorem numChars_shape (m : Int) (e : Nat) :
    ∃ c cs, numChars m e = c :: cs ∧ (c = '-' ∨ isDigitChar c = true) := by
  by_cases hm : m < 0
  · by_cases he : e = 0
    · refine ⟨'-', natDigits m.natAbs, ?_, Or.inl rfl⟩
      simp [numChars, hm, he]
    · refine ⟨'-', natDigits (m.natAbs / 10 ^ e) ++ ['.'] ++ natDigitsPad e (m.natAbs % 10 ^ e), ?_, Or.inl rfl⟩
      simp [numChars, hm, he]
  · by_cases he : e = 0
    · obtain ⟨d, ds, hds⟩ : ∃ d ds, natDigits m.natAbs = d :: ds := by
        cases h : natDigits m.natAbs with
        | nil => exact absurd h (natDigits_ne_nil _)
        | cons d ds => exact ⟨d, ds, rfl⟩
      refine ⟨d, ds, ?_, Or.inr (natDigits_all_digits _ d (by rw [hds]; exact List.mem_cons_self d ds))⟩
      simp [numChars, hm, he, hds]
    · obtain ⟨d, ds, hds⟩ : ∃ d ds, natDigits (m.natAbs / 10 ^ e) = d :: ds := by
        cases h : natDigits (m.natAbs / 10 ^ e) with
        | nil => exact absurd h (natDigits_ne_nil _)
        | cons d ds => exact ⟨d, ds, rfl⟩
      refine ⟨d, ds ++ ['.'] ++ natDigitsPad e (m.natAbs % 10 ^ e), ?_,
        Or.inr (natDigits_all_digits _ d (by rw [hds]; exact List.mem_cons_self d ds))⟩
      simp [numChars, hm, he, hds]

theorem parseNum_numChars (m : Int) (e : Nat) (rest : List Char) (hrest : numContOk rest) :
    parseNum (numChars m e ++ rest) = some ((m, e), rest) := by
  by_cases hm : m < 0
  · have habs : signApply true m.natAbs = m := by
      simp only [signApply, if_true]
      omega
    by_cases he : e = 0
    · have hshape : numChars m e ++ rest = '-' :: (natDigits m.natAbs ++ rest) := by
        simp [numChars, hm, he]
      rw [hshape]
      simp only [parseNum, List.head?, List.tail, if_true]
      rw [parseNumCore_int true m.natAbs rest hrest, habs, he]
    · have hshape : numChars m e ++ rest
          = '-' :: (natDigits (m.natAbs / 10 ^ e) ++ '.' :: (natDigitsPad e (m.natAbs % 10 ^ e) ++ rest)) := by
        simp [numChars, hm, he]
      rw [hshape]
      simp only [parseNum, List.head?, List.tail, if_true]
      rw [parseNumCore_frac true m.natAbs e (Nat.pos_of_ne_zero he) rest hrest, habs]
  · have habs : signApply false m.natAbs = m := by
      simp only [signApply, if_false, Bool.false_eq_true]
      omega
    obtain ⟨c, cs, hshape, hcls⟩ := numChars_shape m e
    have hcd : isDigitChar c = true := by
      rcases hcls with rfl | h
      · exfalso
        by_cases he : e = 0 <;> simp [numChars, hm, he] at hshape
        · obtain ⟨d, ds, hds⟩ : ∃ d ds, natDigits m.natAbs = d :: ds := by
            cases h : natDigits m.natAbs with
            | nil => exact absurd h (natDigits_ne_nil _)
            | cons d ds => exact ⟨d, ds, rfl⟩
          rw [hds] at hshape
          have : isDigitChar d = true :=
            natDigits_all_digits _ d (by rw [hds]; exact List.mem_cons_self d ds)
          have hd' : d = '-' := by
            injection hshape with h1 _
          rw [hd'] at this
          exact absurd this (by decide)
        · obtain ⟨d, ds, hds⟩ : ∃ d ds, natDigits (m.natAbs / 10 ^ e) = d :: ds := by
            cases h : natDigits (m.natAbs / 10 ^ e) with
            | nil => exact absurd h (natDigits_ne_nil _)
            | cons d ds => exact ⟨d, ds, rfl⟩
          rw [hds] at hshape
          have : isDigitChar d = true :=
            natDigits_all_digits _ d (by rw [hds]; exact List.mem_cons_self d ds)
          have hd' : d = '-' := by
            injection hshape with h1 _
          rw [hd'] at this
          exact absurd this (by decide)
      · exact h
    have hhead : (numChars m e ++ rest).head? ≠ some '-' := by
      rw [hshape]
      simp only [List.cons_append, List.head?]
      intro hcontra
      injection hcontra with h1
      exact digit_ne '-' (by decide) hcd h1
    rw [parseNum, if_neg hhead]
    by_cases he : e = 0
    · have hform : numChars m e ++ rest = natDigits m.natAbs ++ rest := by
        simp [numChars, hm, he]
      rw [hform, parseNumCore_int false m.natAbs rest hrest, habs, he]
    · have hform : numChars m e ++ rest
          = natDigits (m.natAbs / 10 ^ e) ++ '.' :: (natDigitsPad e (m.natAbs % 10 ^ e) ++ rest) := by
        simp [numChars, hm, he]
      rw [hform, parseNumCore_frac false m.natAbs e (Nat.pos_of_ne_zero he) rest hrest, habs]

theorem parseVal_numChars (fuel : Nat) (m : Int) (e : Nat) (rest : List Char)
    (hrest : numContOk rest) :
    parseVal (fuel + 1) (numChars m e ++ rest) = some (.num m e, rest) := by
  obtain ⟨c, cs, hshape, hcls⟩ := numChars_shape m e
  have hws : isWsChar c = false := by
    rcases hcls with rfl | h
    · decide
    · exact digit_not_ws h
  have hnq : c ≠ dquote := by
    rcases hcls with rfl | h
    · decide
    · exact digit_ne dquote (by decide) h
  have hnb : c ≠ lbrace := by
    rcases hcls with rfl | h
    · decide
    · exact digit_ne lbrace (by decide) h
  have hnk : c ≠ '[' := by
    rcases hcls with rfl | h
    · decide
    · exact digit_ne '[' (by decide) h
  have hnt : c ≠ 't' := by
    rcases hcls with rfl | h
    · decide
    · exact digit_ne 't' (by decide) h
  have hnf : c ≠ 'f' := by
    rcases hcls with rfl | h
    · decide
    · exact digit_ne 'f' (by decide) h
  have hnn : c ≠ 'n' := by
    rcases hcls with rfl | h
    · decide
    · exact digit_ne 'n' (by decide) h
  have hl : numChars m e ++ rest = c :: (cs ++ rest) := by rw [hshape]; simp
  rw [hl]
  simp only [parseVal, skipWs, dropWhile_cons_false _ hws, if_neg hnq, if_neg hnb, if_neg hnk,
    if_neg hnt, if_neg hnf, if_neg hnn]
  rw [← hl, parseNum_numChars m e rest hrest]
  rfl

theorem parseMembers_serialize (fields : List (String × JVal)) :
    ∀ fuel rest, fieldsOk fields → fields ≠ [] → fields.length + 1 ≤ fuel →
      parseMembers fuel (serializeFields fields ++ rbrace :: rest) = some (fields, rest) := by
  induction fields with
  | nil => intro fuel rest _ hne _; exact absurd rfl hne
  | cons hd tl ih =>
    intro fuel rest hok _ hfuel
    obtain ⟨k, v⟩ := hd
    obtain ⟨hkOk, m, e, rfl⟩ := hok (k, v) (List.mem_cons_self _ _)
    obtain ⟨fuel', rfl⟩ : ∃ f, fuel = f + 1 := ⟨fuel - 1, by omega⟩
    have hfuel' : 1 ≤ fuel' := by simp at hfuel; omega
    obtain ⟨fuel'', rfl⟩ : ∃ f, fuel' = f + 1 := ⟨fuel' - 1, by omega⟩
    cases tl with
    | nil =>
      have hl : serializeFields [(k, JVal.num m e)] ++ rbrace :: rest
          = dquote :: (k.data ++ dquote :: (':' :: (numChars m e ++ rbrace :: rest))) := by
        simp [serializeFields, serializeJVal]
      rw [hl]
      simp only [parseMembers, skipWs, dropWhile_cons_false _ (by decide : isWsChar dquote = false),
        if_pos rfl]
      rw [parseStrBody_closed k (':' :: (numChars m e ++ rbrace :: rest)) hkOk]
      simp only [skipWs, dropWhile_cons_false _ (by decide : isWsChar ':' = false), if_pos rfl]
      rw [parseVal_numChars fuel'' m e (rbrace :: rest)
        (by intro c l' hc; injection hc with h1 _; rw [← h1]
            exact ⟨by decide, by decide, by decide, by decide⟩)]
      simp only [skipWs, dropWhile_cons_false _ (by decide : isWsChar rbrace = false)]
      simp
      exact fun hcontra => absurd hcontra (by decide)
    | cons t ts =>
      have hinner := ih (fuel'' + 1) rest (fun p hp => hok p (List.mem_cons_of_mem _ hp))
        (by simp) (by simp at hfuel ⊢; omega)
      simp only [parseMembers, skipWs] at hinner
      have hl : serializeFields ((k, JVal.num m e) :: t :: ts) ++ rbrace :: rest
          = dquote :: (k.data ++ dquote :: (':' ::
              (numChars m e ++ ',' :: (serializeFields (t :: ts) ++ rbrace :: rest)))) := by
        simp [serializeFields, serializeJVal]
      rw [hl]
      simp only [parseMembers, skipWs, dropWhile_cons_false _ (by decide : isWsChar dquote = false),
        if_pos rfl]
      rw [parseStrBody_closed k
        (':' :: (numChars m e ++ ',' :: (serializeFields (t :: ts) ++ rbrace :: rest))) hkOk]
      simp only [skipWs, dropWhile_cons_false _ (by decide : isWsChar ':' = false), if_pos rfl]
      rw [parseVal_numChars fuel'' m e (',' :: (serializeFields (t :: ts) ++ rbrace :: rest))
        (by intro c l' hc; injection hc with h1 _; rw [← h1]
            exact ⟨by decide, by decide, by decide, by decide⟩)]
      simp only [skipWs, dropWhile_cons_false _ (by decide : isWsChar ',' = false)]
      rw [hinner]
      simp

theorem serializeFields_head_dquote (f : String × JVal) (tl : List (String × JVal)) :
    ∃ cs, serializeFields (f :: tl) = dquote :: cs := by
  obtain ⟨k, v⟩ := f
  cases tl with
  | nil => exact ⟨k.data ++ [dquote, ':'] ++ serializeJVal v, by simp [serializeFields]⟩
  | cons t ts =>
    exact ⟨k.data ++ [dquote, ':'] ++ serializeJVal v ++ ',' :: serializeFields (t :: ts),
      by simp [serializeFields]⟩

theorem parseVal_serializeObj (fields : List (String × JVal)) (fuel : Nat) (rest : List Char)
    (h : fieldsOk fields) (hfuel : fields.length + 2 ≤ fuel) :
    parseVal fuel (lbrace :: (serializeFields fields ++ rbrace :: rest))
      = some (.obj fields, rest) := by
  obtain ⟨fuel', rfl⟩ : ∃ f, fuel = f + 1 := ⟨fuel - 1, by omega⟩
  simp only [parseVal, skipWs, dropWhile_cons_false _ (by decide : isWsChar lbrace = false),
    if_neg (by decide : ¬(lbrace = dquote)), if_pos rfl]
  cases fields with
  | nil =>
    simp only [serializeFields, List.nil_append]
    simp only [skipWs, dropWhile_cons_false _ (by decide : isWsChar rbrace = false), if_pos rfl]
    simp
  | cons f tl =>
    obtain ⟨cs, hcs⟩ := serializeFields_head_dquote f tl
    rw [hcs]
    simp only [List.cons_append]
    simp only [skipWs, dropWhile_cons_false _ (by decide : isWsChar dquote = false),
      if_neg (by decide : ¬(dquote = rbrace))]
    rw [show dquote :: (cs ++ rbrace :: rest) = (dquote :: cs) ++ rbrace :: rest by simp, ← hcs]
    rw [parseMembers_serialize (f :: tl) fuel' rest h (by simp) (by simp at hfuel ⊢; omega)]
    simp

theorem serializeFields_length_ge (fields : List (String × JVal)) :
    fields.length ≤ (serializeFields fields).length := by
  induction fields with
  | nil => simp [serializeFields]
  | cons f tl ih =>
    obtain ⟨k, v⟩ := f
    cases tl with
    | nil => simp [serializeFields]
    | cons t ts =>
      simp only [serializeFields, List.length_cons, List.length_append] at ih ⊢
      omega

theorem jsonDecode_serializeObj (fields : List (String × JVal)) (h : fieldsOk fields) :
    jsonDecode (serializeStr (.obj fields)) = some (.obj fields) := by
  have hdata : (serializeStr (JVal.obj fields)).data
      = lbrace :: (serializeFields fields ++ rbrace :: []) := by
    simp [serializeStr, serializeJVal]
  have hlen : (serializeStr (JVal.obj fields)).length = (serializeFields fields).length + 2 := by
    show (serializeStr (JVal.obj fields)).data.length = _
    rw [hdata]; simp
  simp only [jsonDecode, hdata, hlen]
  rw [parseVal_serializeObj fields ((serializeFields fields).length + 2 + 1) []
    h (by have := serializeFields_length_ge fields; omega)]
  simp [skipWs]

/-! ### Prose analysis for the two parse phases -/

theorem dropWhile_append_left {p : Char → Bool} (xs ys : List Char) (h : xs.dropWhile p ≠ []) :
    (xs ++ ys).dropWhile p = xs.dropWhile p ++ ys := by
  induction xs with
  | nil => simp at h
  | cons x xt ih =>
    by_cases hx : p x = true
    · simp only [List.cons_append, List.dropWhile_cons, hx, if_true]
      simp only [List.dropWhile_cons, hx, if_true] at h
      exact ih h
    · rw [Bool.not_eq_true] at hx
      rw [dropWhile_cons_false _ hx, List.cons_append, dropWhile_cons_false _ hx]

theorem mem_drop_of_isPrefixOf (pre : List Char) :
    ∀ l, List.isPrefixOf pre l = true → ∀ x ∈ l, x ∉ pre → x ∈ l.drop pre.length := by
  induction pre with
  | nil => intro l _ x hx _; simpa using hx
  | cons p ps ih =>
    intro l hpre x hx hnx
    cases l with
    | nil => simp [List.isPrefixOf] at hpre
    | cons c cs =>
      simp only [List.isPrefixOf, Bool.and_eq_true, beq_iff_eq] at hpre
      obtain ⟨rfl, hps⟩ := hpre
      simp only [List.length_cons, List.drop_succ_cons]
      have hxcs : x ∈ cs := by
        rcases List.mem_cons.mp hx with rfl | hxc
        · exact absurd (List.mem_cons_self _ _) hnx
        · exact hxc
      exact ih cs hps x hxcs (fun hc => hnx (List.mem_cons_of_mem _ hc))

theorem parseExpDigits_consumed (m : Int) (e : Nat) (es : Bool) (l : List Char) (p : Int × Nat)
    (rest : List Char) (h : parseExpDigits m e es l = some (p, rest)) :
    ∃ pre, l = pre ++ rest ∧ ∀ c ∈ pre, isDigitChar c = true := by
  cases l with
  | nil => simp [parseExpDigits] at h
  | cons c r =>
    by_cases hc : isDigitChar c = true
    · simp only [parseExpDigits, hc, if_true] at h
      rcases ht : takeDigits (c :: r) 0 0 with ⟨v, k, l2⟩
      rw [ht] at h
      simp only [Option.some.injEq, Prod.mk.injEq] at h
      obtain ⟨pre, hpre, hall⟩ := takeDigits_consumed (c :: r) 0 0 v k l2 ht
      exact ⟨pre, by rw [← h.2]; exact hpre, hall⟩
    · simp [parseExpDigits, hc] at h

theorem parseExpTail_consumed (m : Int) (e : Nat) (l : List Char) (p : Int × Nat)
    (rest : List Char) (h : parseExpTail m e l = some (p, rest)) :
    ∃ pre, l = pre ++ rest ∧
      ∀ c ∈ pre, c = 'e' ∨ c = 'E' ∨ c = '+' ∨ c = '-' ∨ isDigitChar c = true := by
  cases l with
  | nil =>
    simp only [parseExpTail, Option.some.injEq, Prod.mk.injEq] at h
    exact ⟨[], by simp [← h.2], by simp⟩
  | cons c r =>
    have hce0 : c = 'e' ∨ c = 'E' → ∀ x, x = c →
        x = 'e' ∨ x = 'E' ∨ x = '+' ∨ x = '-' ∨ isDigitChar x = true := by
      rintro (rfl | rfl) x rfl
      · exact Or.inl rfl
      · exact Or.inr (Or.inl rfl)
    by_cases hce : c = 'e' ∨ c = 'E'
    · simp only [parseExpTail, if_pos hce] at h
      by_cases hp1 : r.head? = some '+'
      · rw [if_pos hp1] at h
        obtain ⟨c2, r2, rfl⟩ : ∃ c2 r2, r = c2 :: r2 := by
          cases r with
          | nil => simp at hp1
          | cons c2 r2 => exact ⟨c2, r2, rfl⟩
        have hc2 : c2 = '+' := by simpa [List.head?] using hp1
        simp only [List.tail_cons] at h
        obtain ⟨pre, hpre, hall⟩ := parseExpDigits_consumed m e false r2 p rest h
        refine ⟨c :: c2 :: pre, by simp [hpre], ?_⟩
        intro x hx
        rcases List.mem_cons.mp hx with rfl | hx
        · exact hce0 hce x rfl
        rcases List.mem_cons.mp hx with rfl | hx
        · exact Or.inr (Or.inr (Or.inl hc2))
        · exact Or.inr (Or.inr (Or.inr (Or.inr (hall x hx))))
      · rw [if_neg hp1] at h
        by_cases hm1 : r.head? = some '-'
        · rw [if_pos hm1] at h
          obtain ⟨c2, r2, rfl⟩ : ∃ c2 r2, r = c2 :: r2 := by
            cases r with
            | nil => simp at hm1
            | cons c2 r2 => exact ⟨c2, r2, rfl⟩
          have hc2 : c2 = '-' := by simpa [List.head?] using hm1
          simp only [List.tail_cons] at h
          obtain ⟨pre, hpre, hall⟩ := parseExpDigits_consumed m e true r2 p rest h
          refine ⟨c :: c2 :: pre, by simp [hpre], ?_⟩
          intro x hx
          rcases List.mem_cons.mp hx with rfl | hx
          · exact hce0 hce x rfl
          rcases List.mem_cons.mp hx with rfl | hx
          · exact Or.inr (Or.inr (Or.inr (Or.inl hc2)))
          · exact Or.inr (Or.inr (Or.inr (Or.inr (hall x hx))))
        · rw [if_neg hm1] at h
          obtain ⟨pre, hpre, hall⟩ := parseExpDigits_consumed m e false r p rest h
          refine ⟨c :: pre, by simp [hpre], ?_⟩
          intro x hx
          rcases List.mem_cons.mp hx with rfl | hx
          · exact hce0 hce x rfl
          · exact Or.inr (Or.inr (Or.inr (Or.inr (hall x hx))))
    · simp only [parseExpTail, if_neg hce, Option.some.injEq, Prod.mk.injEq] at h
      exact ⟨[], by simp [← h.2], by simp⟩

theorem parseNumCore_consumed (neg : Bool) (l1 : List Char) (p : Int × Nat) (rest : List Char)
    (h : parseNumCore neg l1 = some (p, rest)) :
    ∃ pre, l1 = pre ++ rest ∧
      ∀ c ∈ pre, c = '-' ∨ isDigitChar c = true ∨ c = '.' ∨ c = 'e' ∨ c = 'E' ∨ c = '+' := by
  have hexp : ∀ x : Char, x = 'e' ∨ x = 'E' ∨ x = '+' ∨ x = '-' ∨ isDigitChar x = true →
      x = '-' ∨ isDigitChar x = true ∨ x = '.' ∨ x = 'e' ∨ x = 'E' ∨ x = '+' := by
    intro x hx
    rcases hx with h1 | h1 | h1 | h1 | h1
    · exact Or.inr (Or.inr (Or.inr (Or.inl h1)))
    · exact Or.inr (Or.inr (Or.inr (Or.inr (Or.inl h1))))
    · exact Or.inr (Or.inr (Or.inr (Or.inr (Or.inr h1))))
    · exact Or.inl h1
    · exact Or.inr (Or.inl h1)
  cases l1 with
  | nil => simp [parseNumCore] at h
  | cons c r =>
    by_cases hc : isDigitChar c = true
    · simp only [parseNumCore, hc, if_true] at h
      rcases ht1 : takeDigits (c :: r) 0 0 with ⟨v1, k1, l2⟩
      rw [ht1] at h
      simp only at h
      obtain ⟨pre1, hpre1, hall1⟩ := takeDigits_consumed (c :: r) 0 0 v1 k1 l2 ht1
      cases l2 with
      | nil =>
        simp only [Option.some.injEq, Prod.mk.injEq] at h
        refine ⟨pre1, ?_, fun x hx => Or.inr (Or.inl (hall1 x hx))⟩
        rw [hpre1, ← h.2]
      | cons c2 l3 =>
        by_cases hdot : c2 = '.'
        · subst hdot
          simp only [if_pos rfl] at h
          cases l3 with
          | nil => simp at h
          | cons c3 l4 =>
            by_cases hc3 : isDigitChar c3 = true
            · simp only [hc3, if_true] at h
              rcases ht2 : takeDigits (c3 :: l4) 0 0 with ⟨v2, k2, l5⟩
              rw [ht2] at h
              simp only at h
              obtain ⟨pre2, hpre2, hall2⟩ := takeDigits_consumed (c3 :: l4) 0 0 v2 k2 l5 ht2
              obtain ⟨pre3, hpre3, hall3⟩ := parseExpTail_consumed _ _ l5 p rest h
              refine ⟨pre1 ++ '.' :: (pre2 ++ pre3), ?_, ?_⟩
              · rw [hpre1, hpre2, hpre3]
                simp
              · intro x hx
                simp only [List.mem_append, List.mem_cons] at hx
                rcases hx with hx | hx | hx | hx
                · exact Or.inr (Or.inl (hall1 x hx))
                · exact Or.inr (Or.inr (Or.inl hx))
                · exact Or.inr (Or.inl (hall2 x hx))
                · exact hexp x (hall3 x hx)
            · simp [hc3] at h
        · simp only [if_neg hdot] at h
          obtain ⟨pre3, hpre3, hall3⟩ := parseExpTail_consumed _ _ (c2 :: l3) p rest h
          refine ⟨pre1 ++ pre3, ?_, ?_⟩
          · rw [hpre1, hpre3]
            simp
          · intro x hx
            rcases List.mem_append.mp hx with hx | hx
            · exact Or.inr (Or.inl (hall1 x hx))
            · exact hexp x (hall3 x hx)
    · simp [parseNumCore, hc] at h

theorem parseNum_consumed (l : List Char) (p : Int × Nat) (rest : List Char)
    (h : parseNum l = some (p, rest)) :
    ∃ pre, l = pre ++ rest ∧
      ∀ c ∈ pre, c = '-' ∨ isDigitChar c = true ∨ c = '.' ∨ c = 'e' ∨ c = 'E' ∨ c = '+' := by
  by_cases hneg : l.head? = some '-'
  · rw [parseNum, if_pos hneg] at h
    obtain ⟨c, r, rfl⟩ : ∃ c r, l = c :: r := by
      cases l with
      | nil => simp at hneg
      | cons c r => exact ⟨c, r, rfl⟩
    have hc : c = '-' := by simpa [List.head?] using hneg
    obtain ⟨pre, hpre, hall⟩ := parseNumCore_consumed true r p rest (by simpa using h)
    refine ⟨c :: pre, by simp [hpre], ?_⟩
    intro x hx
    rcases List.mem_cons.mp hx with rfl | hx
    · exact Or.inl hc
    · exact hall x hx
  · rw [parseNum, if_neg hneg] at h
    exact parseNumCore_consumed false l p rest h

/-- When the trimmed text begins with a non-whitespace character that is
none of quote, opening brace and opening bracket, and an opening brace
occurs somewhere in it, the direct decode fails: the remaining branches
are the three literals and a number parse, none of which can consume the
brace, so non-whitespace trailing text survives. -/
theorem jsonDecode_prose_none (s : String) (c : Char) (cs : List Char)
    (hs : s.data = c :: cs)
    (hws : isWsChar c = false) (hq : c ≠ dquote) (hbr : c ≠ lbrace) (hbk : c ≠ '[')
    (hbrace : lbrace ∈ s.data) :
    jsonDecode s = none := by
  have hincs : lbrace ∈ cs := by
    rcases List.mem_cons.mp (hs ▸ hbrace) with h1 | h1
    · exact absurd h1.symm hbr
    · exact h1
  have hfail : ∀ rest : List Char, lbrace ∈ rest → (skipWs rest).isEmpty = false := by
    intro rest hmem
    have hne : skipWs rest ≠ [] := skipWs_ne_nil_of_mem rest hmem (by decide)
    cases hcase : skipWs rest with
    | nil => exact absurd hcase hne
    | cons a b => rfl
  simp only [jsonDecode, hs]
  simp only [parseVal, skipWs, dropWhile_cons_false cs hws, if_neg hq, if_neg hbr, if_neg hbk]
  by_cases ht : c = 't'
  · subst ht
    cases hpe : List.isPrefixOf ['r', 'u', 'e'] cs with
    | false => simp [hpe]
    | true =>
      have hx : lbrace ∈ cs.drop 3 :=
        mem_drop_of_isPrefixOf ['r', 'u', 'e'] cs hpe lbrace hincs (by decide)
      have hemp := hfail (cs.drop 3) hx
      simp [hpe, hemp]
      exact ⟨lbrace, hx, by decide⟩
  by_cases hf : c = 'f'
  · subst hf
    cases hpe : List.isPrefixOf ['a', 'l', 's', 'e'] cs with
    | false => simp [hpe]
    | true =>
      have hx : lbrace ∈ cs.drop 4 :=
        mem_drop_of_isPrefixOf ['a', 'l', 's', 'e'] cs hpe lbrace hincs (by decide)
      have hemp := hfail (cs.drop 4) hx
      simp [hpe, hemp]
      exact ⟨lbrace, hx, by decide⟩
  by_cases hn : c = 'n'
  · subst hn
    cases hpe : List.isPrefixOf ['u', 'l', 'l'] cs with
    | false => simp [hpe]
    | true =>
      have hx : lbrace ∈ cs.drop 3 :=
        mem_drop_of_isPrefixOf ['u', 'l', 'l'] cs hpe lbrace hincs (by decide)
      have hemp := hfail (cs.drop 3) hx
      simp [hpe, hemp]
      exact ⟨lbrace, hx, by decide⟩
  rw [if_neg ht, if_neg hf, if_neg hn]
  cases hp : parseNum (c :: cs) with
  | none => simp
  | some pr =>
    obtain ⟨p, rest⟩ := pr
    obtain ⟨pre, hpre, hall⟩ := parseNum_consumed (c :: cs) p rest hp
    have hmem : lbrace ∈ rest := by
      rw [hs, hpre] at hbrace
      rcases List.mem_append.mp hbrace with hmem | hmem
      · exfalso
        rcases hall lbrace hmem with h1 | h1 | h1 | h1 | h1 | h1 <;>
          exact absurd h1 (by decide)
      · exact hmem
    have hemp := hfail rest hmem
    simp [hp, hemp]
    exact ⟨lbrace, hmem, by decide⟩

/-! ### The greedy brace extraction -/

theorem string_eq_of_data {s t : String} (h : s.data = t.data) : s = t := by
  cases s; cases t; exact congrArg String.mk h

theorem lbrace_str : ("\x7b" : String).data = [lbrace] := by decide

theorem rbrace_str : ("\x7d" : String).data = [rbrace] := by decide

theorem extractBracedL_span (b mid a : List Char)
    (hb : ∀ c ∈ b, c ≠ lbrace) (ha : ∀ c ∈ a, c ≠ rbrace) :
    extractBracedL (b ++ lbrace :: (mid ++ rbrace :: a)) = some (lbrace :: (mid ++ [rbrace])) := by
  have hrest : (b ++ lbrace :: (mid ++ rbrace :: a)).dropWhile (fun c => !(c = lbrace))
      = lbrace :: (mid ++ rbrace :: a) :=
    dropWhile_append_cons_false b _ (fun x hx => by simp [hb x hx]) (by simp)
  have hrev : (lbrace :: (mid ++ rbrace :: a)).reverse
      = a.reverse ++ rbrace :: (mid.reverse ++ [lbrace]) := by
    simp
  have hrev2 : (a.reverse ++ rbrace :: (mid.reverse ++ [lbrace])).dropWhile (fun c => !(c = rbrace))
      = rbrace :: (mid.reverse ++ [lbrace]) :=
    dropWhile_append_cons_false a.reverse _
      (fun x hx => by simp [ha x (List.mem_reverse.mp hx)]) (by simp)
  simp only [extractBracedL, hrest, hrev, hrev2]
  simp

/-- String-level form of the span lemma: however many further brace
pairs `mid` holds, the extraction returns the single substring from the
first opening to the last closing brace. -/
theorem extractBraced_span (b mid a : String)
    (hb : ∀ c ∈ b.data, c ≠ lbrace) (ha : ∀ c ∈ a.data, c ≠ rbrace) :
    extractBraced (b ++ "\x7b" ++ mid ++ "\x7d" ++ a)
      = some ("\x7b" ++ mid ++ "\x7d") := by
  have hdata : (b ++ "\x7b" ++ mid ++ "\x7d" ++ a).data
      = b.data ++ lbrace :: (mid.data ++ rbrace :: a.data) := by
    show b.data ++ ("\x7b" : String).data ++ mid.data ++ ("\x7d" : String).data ++ a.data = _
    rw [lbrace_str, rbrace_str]
    simp
  have hout : ("\x7b" ++ mid ++ "\x7d" : String).data = lbrace :: (mid.data ++ [rbrace]) := by
    show ("\x7b" : String).data ++ mid.data ++ ("\x7d" : String).data = _
    rw [lbrace_str, rbrace_str]
    simp
  simp only [extractBraced, hdata, extractBracedL_span b.data mid.data a.data hb ha]
  exact congrArg some (string_eq_of_data (by rw [hout]))

/-! ### Trimming around an embedded object -/

theorem all_of_dropWhile_nil {p : Char → Bool} (l : List Char) (h : l.dropWhile p = []) :
    ∀ x ∈ l, p x = true := by
  induction l with
  | nil => simp
  | cons y ys ih =>
    by_cases hy : p y = true
    · intro x hx
      rcases List.mem_cons.mp hx with rfl | hx'
      · exact hy
      · simp only [List.dropWhile_cons, hy, if_true] at h
        exact ih h x hx'
    · rw [Bool.not_eq_true] at hy
      rw [dropWhile_cons_false _ hy] at h
      simp at h

theorem jsTrim_decomp (b a : String) (mid : List Char) :
    ∃ b2 a2, (jsTrim (String.mk (b.data ++ (lbrace :: (mid ++ [rbrace])) ++ a.data))).data
        = b2 ++ (lbrace :: (mid ++ [rbrace])) ++ a2
      ∧ (∀ c ∈ b2, c ∈ b.data) ∧ (∀ c ∈ a2, c ∈ a.data)
      ∧ (b2 = [] ∨ ∃ c cs, b2 = c :: cs ∧ isWsChar c = false)
      ∧ (a2 = [] ∨ ∃ c, c ∈ a2 ∧ isWsChar c = false) := by
  refine ⟨b.data.dropWhile isWsChar, (a.data.reverse.dropWhile isWsChar).reverse,
    ?hmain, ?hbm, ?ham, ?hbh, ?hah⟩
  case hbm => exact fun c hc => mem_of_mem_dropWhile b.data hc
  case ham =>
    intro c hc
    exact List.mem_reverse.mp (mem_of_mem_dropWhile a.data.reverse (List.mem_reverse.mp hc))
  case hbh =>
    cases hcase : b.data.dropWhile isWsChar with
    | nil => exact Or.inl rfl
    | cons c cs => exact Or.inr ⟨c, cs, rfl, dropWhile_head_false b.data hcase⟩
  case hah =>
    cases hcase : a.data.reverse.dropWhile isWsChar with
    | nil => exact Or.inl (by simp)
    | cons c cs =>
      exact Or.inr ⟨c, by simp, dropWhile_head_false a.data.reverse hcase⟩
  case hmain =>
    show (((b.data ++ (lbrace :: (mid ++ [rbrace])) ++ a.data).dropWhile
        isWsChar).reverse.dropWhile isWsChar).reverse = _
    have hfront : (b.data ++ (lbrace :: (mid ++ [rbrace])) ++ a.data).dropWhile isWsChar
        = b.data.dropWhile isWsChar ++ ((lbrace :: (mid ++ [rbrace])) ++ a.data) := by
      rw [List.append_assoc]
      cases hb2 : b.data.dropWhile isWsChar with
      | nil =>
        rw [dropWhile_append_all b.data _ (all_of_dropWhile_nil b.data hb2)]
        rw [List.cons_append, dropWhile_cons_false _ (by decide)]
        simp
      | cons c cs =>
        rw [dropWhile_append_left b.data _ (by rw [hb2]; simp), hb2]
    rw [hfront]
    have hrev : (b.data.dropWhile isWsChar ++ ((lbrace :: (mid ++ [rbrace])) ++ a.data)).reverse
        = a.data.reverse ++ ((rbrace :: (mid.reverse ++ [lbrace]))
            ++ (b.data.dropWhile isWsChar).reverse) := by
      simp
    rw [hrev]
    have hback : (a.data.reverse ++ ((rbrace :: (mid.reverse ++ [lbrace]))
          ++ (b.data.dropWhile isWsChar).reverse)).dropWhile isWsChar
        = a.data.reverse.dropWhile isWsChar ++ ((rbrace :: (mid.reverse ++ [lbrace]))
          ++ (b.data.dropWhile isWsChar).reverse) := by
      cases ha2 : a.data.reverse.dropWhile isWsChar with
      | nil =>
        rw [dropWhile_append_all a.data.reverse _ (all_of_dropWhile_nil a.data.reverse ha2)]
        rw [List.cons_append, dropWhile_cons_false _ (by decide)]
        simp
      | cons c cs =>
        rw [dropWhile_append_left a.data.reverse _ (by rw [ha2]; simp), ha2]
    rw [hback]
    simp

theorem jsonDecode_obj_with_rest (t : String) (fields : List (String × JVal)) (a2 : List Char)
    (hok : fieldsOk fields) (ht : t.data = serializeJVal (.obj fields) ++ a2) :
    jsonDecode t = if (skipWs a2).isEmpty = true then some (.obj fields) else none := by
  have hlen : fields.length + 2 ≤ t.length + 1 := by
    have h1 : t.length = (serializeJVal (.obj fields)).length + a2.length := by
      show t.data.length = _
      rw [ht, List.length_append]
    have h2 : (serializeJVal (.obj fields)).length = (serializeFields fields).length + 2 := by
      show (lbrace :: (serializeFields fields ++ [rbrace])).length = _
      simp
    have h3 := serializeFields_length_ge fields
    omega
  have hsd : serializeJVal (.obj fields) ++ a2
      = lbrace :: (serializeFields fields ++ rbrace :: a2) := by
    show (lbrace :: (serializeFields fields ++ [rbrace])) ++ a2 = _
    simp
  simp only [jsonDecode, ht, hsd]
  rw [parseVal_serializeObj fields (t.length + 1) a2 hok hlen]

theorem parseCompletion_eq (content : String) :
    parseCompletion content
      = match jsonDecode (jsTrim content) with
        | some v => Except.ok v
        | none =>
          match extractBraced (jsTrim content) with
          | some sub =>
            match jsonDecode sub with
            | some v => Except.ok v
            | none => Except.error
                ("AI generated invalid JSON. Response: " ++ truncate200 (jsTrim content))
          | none => Except.error
              ("AI did not generate valid JSON. Response: " ++ truncate200 (jsTrim content)) := rfl

/-- Parsing a serialized flat record surrounded by prose succeeds when the
leading prose contains no opening brace, no opening bracket and no quote
and the trailing prose contains no closing brace: either the direct decode
succeeds (whitespace-only prose) or the direct decode fails — the leading
prose can start neither a string, an object nor an array, and a literal or
number cannot consume the object's brace — and the greedy extraction
recovers the exact serialized object. -/
theorem parseCompletion_prose (fields : List (String × JVal)) (b a : String)
    (hok : fieldsOk fields)
    (hb1 : ∀ c ∈ b.data, c ≠ lbrace) (hbk : ∀ c ∈ b.data, c ≠ '[')
    (hbq : ∀ c ∈ b.data, c ≠ dquote)
    (ha1 : ∀ c ∈ a.data, c ≠ rbrace) :
    parseCompletion (b ++ serializeStr (.obj fields) ++ a) = Except.ok (.obj fields) := by
  have hin : (b ++ serializeStr (.obj fields) ++ a)
      = String.mk (b.data ++ (lbrace :: (serializeFields fields ++ [rbrace])) ++ a.data) :=
    string_eq_of_data rfl
  rw [hin]
  obtain ⟨b2, a2, hmain, hbm, ham, hbh, hah⟩ := jsTrim_decomp b a (serializeFields fields)
  have hb2l : ∀ c ∈ b2, c ≠ lbrace := fun c hc => hb1 c (hbm c hc)
  have hb2k : ∀ c ∈ b2, c ≠ '[' := fun c hc => hbk c (hbm c hc)
  have hb2q : ∀ c ∈ b2, c ≠ dquote := fun c hc => hbq c (hbm c hc)
  have ha2r : ∀ c ∈ a2, c ≠ rbrace := fun c hc => ha1 c (ham c hc)
  have hextract : extractBraced (jsTrim (String.mk
      (b.data ++ (lbrace :: (serializeFields fields ++ [rbrace])) ++ a.data)))
      = some (serializeStr (.obj fields)) := by
    have hdata2 : (jsTrim (String.mk
        (b.data ++ (lbrace :: (serializeFields fields ++ [rbrace])) ++ a.data))).data
        = b2 ++ lbrace :: (serializeFields fields ++ rbrace :: a2) := by
      rw [hmain]
      simp
    simp only [extractBraced, hdata2,
      extractBracedL_span b2 (serializeFields fields) a2 hb2l ha2r]
    rfl
  rcases hbh with rfl | ⟨c, cs, hb2cons, hcw⟩
  · have hdec := jsonDecode_obj_with_rest (jsTrim (String.mk
        (b.data ++ (lbrace :: (serializeFields fields ++ [rbrace])) ++ a.data))) fields a2 hok
      (by rw [hmain]; simp [serializeJVal])
    rcases hah with rfl | ⟨cw, hcwmem, hcwns⟩
    · have hsome : jsonDecode (jsTrim (String.mk
          (b.data ++ (lbrace :: (serializeFields fields ++ [rbrace])) ++ a.data)))
          = some (.obj fields) := by
        rw [hdec]
        simp [skipWs]
      rw [parseCompletion_eq, hsome]
    · have hne : skipWs a2 ≠ [] := skipWs_ne_nil_of_mem a2 hcwmem hcwns
      have hemp : (skipWs a2).isEmpty = false := by
        cases hc2 : skipWs a2 with
        | nil => exact absurd hc2 hne
        | cons x xs => rfl
      have hnone : jsonDecode (jsTrim (String.mk
          (b.data ++ (lbrace :: (serializeFields fields ++ [rbrace])) ++ a.data))) = none := by
        rw [hdec, hemp]
        simp
      rw [parseCompletion_eq, hnone, hextract]
      simp [jsonDecode_serializeObj fields hok]
  · have hnone : jsonDecode (jsTrim (String.mk
        (b.data ++ (lbrace :: (serializeFields fields ++ [rbrace])) ++ a.data))) = none := by
      apply jsonDecode_prose_none _
        c (cs ++ ((lbrace :: (serializeFields fields ++ [rbrace])) ++ a2))
        (by rw [hmain, hb2cons]; simp) hcw
        (hb2q c (by rw [hb2cons]; exact List.mem_cons_self _ _))
        (hb2l c (by rw [hb2cons]; exact List.mem_cons_self _ _))
        (hb2k c (by rw [hb2cons]; exact List.mem_cons_self _ _))
      rw [hmain]
      simp
    rw [parseCompletion_eq, hnone, hextract]
    simp [jsonDecode_serializeObj fields hok]

/-- Claim C5: for every baseline current temperature and every AI
target2100 below current + 1.5, the temperature interpolation raises the
target to current + 1.5, the curve is the linear blend
`current + (flooredTarget - current) * progress` plus the non-negative
perturbation bounded by 0.3, so the interpolated 2100 value is never below
current + 1.5. -/
theorem C5_committed_warming_floor (currentYear : Int) (current target tip : Rat)
    (hy : currentYear < 2100) (htarget : target < current + 3/2)
    (h0 : 0 ≤ tip) (_h3 : tip ≤ 3/10) :
    constrainedTargetTemp current target = current + 3/2
  ∧ speculativeTempAt currentYear current target tip 2100
      = current + 3/2 * progressAt currentYear 2100 + tip
  ∧ current + 3/2 ≤ speculativeTempAt currentYear current target tip 2100 := by
  have hmax : constrainedTargetTemp current target = current + 3/2 :=
    max_eq_right (le_of_lt htarget)
  have hne : ((2100 - currentYear : Int) : Rat) ≠ 0 := by
    rw [Int.cast_ne_zero]
    omega
  have hprog : progressAt currentYear 2100 = 1 := div_self hne
  refine ⟨hmax, ?_, ?_⟩
  · simp only [speculativeTempAt, hmax]
    ring
  · simp only [speculativeTempAt, hmax, hprog]
    linarith

theorem C5_committed_warming_floor_witness :
    constrainedTargetTemp (11/10) (21/10) = 11/10 + 3/2
  ∧ speculativeTempAt 2024 (11/10) (21/10) (1/10) 2100
      = 11/10 + 3/2 * progressAt 2024 2100 + 1/10
  ∧ 11/10 + 3/2 ≤ speculativeTempAt 2024 (11/10) (21/10) (1/10) 2100 :=
  C5_committed_warming_floor 2024 (11/10) (21/10) (1/10) (by norm_num) (by norm_num)
    (by norm_num) (by norm_num)

/-- Claim C6: with an explicit AI emissions target the speculative value
is the plain linear blend with no floor; without one, the engine blends
toward a fallback target that is floored at `current * 0.15` using the
deployment-lag-adjusted progress `min(progress + (y - presentYear)/20, 1)`. -/
theorem C6_emissions_interpolation (currentYear year : Int) (current target temp2100 : Rat)
    (hy : currentYear ≤ year) :
    speculativeEmissionsAt currentYear current (some target) temp2100 year
        = current + (target - current) * progressAt currentYear year
  ∧ speculativeEmissionsAt currentYear current none temp2100 year
        = current + (emissionsFallbackTarget current temp2100 - current)
            * min (progressAt currentYear year + ((year - currentYear : Int) : Rat) / 20) 1
  ∧ current * (15/100) ≤ emissionsFallbackTarget current temp2100 := by
  refine ⟨rfl, ?_, ?_⟩
  · have hdelay : deploymentDelay currentYear year = ((year - currentYear : Int) : Rat) / 20 := by
      rw [deploymentDelay, max_eq_right]
      apply div_nonneg _ (by norm_num)
      rw [Int.cast_nonneg]
      omega
    simp only [speculativeEmissionsAt, hdelay]
  · simp only [emissionsFallbackTarget]
    exact le_max_right _ _

theorem C6_emissions_interpolation_witness :
    speculativeEmissionsAt 2024 (368/10) (some (98/10)) (19/10) 2050
        = 368/10 + (98/10 - 368/10) * progressAt 2024 2050
  ∧ speculativeEmissionsAt 2024 (368/10) none (19/10) 2050
        = 368/10 + (emissionsFallbackTarget (368/10) (19/10) - 368/10)
            * min (progressAt 2024 2050 + ((2050 - 2024 : Int) : Rat) / 20) 1
  ∧ (368/10) * (15/100) ≤ emissionsFallbackTarget (368/10) (19/10) :=
  C6_emissions_interpolation 2024 2050 (368/10) (98/10) (19/10) (by norm_num)

/-- Claim C1 (code bug): with the completion service unavailable, scenario
creation does not fall through to the Keyword Fallback Generator — the
route's catch turns the rethrown `OpenAI API error` into a 500 payload and
nothing is stored — even though the (never-called) fallback generator
would have produced exactly the fusion scenario the spec describes, with a
theme containing "fusion" and `global_temp_2100 = 1.8`. -/
theorem C1_completion_failure_returns_error :
    postScenarios "What if we master fusion energy before 2025?"
        (CompletionOutcome.unavailable "network timeout") [] "2025-01-01T00:00:00.000Z"
      = ([], ApiResult.failure 500 "Failed to create scenario")
  ∧ generateFallbackScenario "What if we master fusion energy before 2025?" = fbFusion
  ∧ containsSub fbFusion.theme "fusion" = true
  ∧ fbFusion.alt_forecasts.getField "global_temp_2100" = some (JVal.num 18 1)
  ∧ ((18 : Rat) / 10 ^ (1 : Nat)) = 1.8 :=
  ⟨rfl, rfl, rfl, rfl, by norm_num⟩

/-- Claim C2 (counterexample): an empty `userInput` is not rejected — with
the completion service available the route creates and stores a scenario
for it, and with the service unavailable it reports the completion
failure; in both cases the pipeline ran on the empty input. -/
theorem C2_empty_input_not_rejected :
    (postScenarios "" (CompletionOutcome.ok (serializeStr sampleScenarioJVal)) [] "t").2
      = ApiResult.created none (some (JVal.str "A fusion test theme"))
          (some (JVal.obj promptExampleFields)) (some (JVal.str "A short narrative.")) ""
  ∧ ((postScenarios "" (CompletionOutcome.ok (serializeStr sampleScenarioJVal)) [] "t").1).length = 1
  ∧ (postScenarios "" (CompletionOutcome.unavailable "ECONNREFUSED") [] "t").2
      = ApiResult.failure 500 "Failed to create scenario" :=
  ⟨rfl, rfl, rfl⟩

/-- Claim C2 (amended): the server performs no validation of `userInput`;
an empty input flows through the pipeline exactly like any other input —
whether the response is a creation or a failure, and how many rows are
stored, depend only on the completion outcome. -/
theorem C2_empty_input_processed_like_any (completion : CompletionOutcome)
    (db : List ScenarioRow) (now : String) (s : String) :
    (postScenarios "" completion db now).2.isCreated
        = (postScenarios s completion db now).2.isCreated
  ∧ ((postScenarios "" completion db now).1).length
        = ((postScenarios s completion db now).1).length := by
  cases h : generateScenario completion with
  | error e => simp [postScenarios, h, ApiResult.isCreated]
  | ok v => simp [postScenarios, h, ApiResult.isCreated]

/-- Claim C8 (code bug): the store's public surface does not carry the
persisted record shape — `GET /api/scenarios` always answers `[]` and
`GET /api/scenarios/:id` always fails with a server error, because both
call the callback-style sqlite3 API without callbacks; and the creation
response has `id` undefined, carries `userInput` rather than `user_input`,
and has no `created_at` field. -/
theorem C8_store_surface_degraded (db : List ScenarioRow) (id : Nat) :
    apiScenariosGet db = []
  ∧ apiScenarioById db id = GetByIdResult.serverError
  ∧ (postScenarios "probe" (CompletionOutcome.ok (serializeStr sampleScenarioJVal)) [] "t").2
      = ApiResult.created none (some (JVal.str "A fusion test theme"))
          (some (JVal.obj promptExampleFields)) (some (JVal.str "A short narrative.")) "probe" :=
  ⟨rfl, rfl, rfl⟩

/-- Claim C9: the generation pipeline never receives a partially-populated
baseline: an absent override is replaced by the complete default baseline
(all four indicator series, with the literal current values of the route),
and a present override is used as given. -/
theorem C9_baseline_defaulting (r1 r2 : ScenarioRequest) (bd : BaselineData)
    (h1 : r1.baselineData = none) (h2 : r2.baselineData = some bd) :
    effectiveBaseline r1 = defaultBaselineData
  ∧ effectiveBaseline r2 = bd
  ∧ defaultBaselineData.global_temp = { current := 11/10, forecast := [] }
  ∧ defaultBaselineData.carbon_emissions = { current := 385/10, forecast := [] }
  ∧ defaultBaselineData.sea_level_rise = { current := 22/100, forecast := [] }
  ∧ defaultBaselineData.forest_loss = { current := 15, forecast := [] } := by
  refine ⟨?_, ?_, rfl, rfl, rfl, rfl⟩
  · simp [effectiveBaseline, h1]
  · simp [effectiveBaseline, h2]

theorem C9_baseline_defaulting_witness :
    effectiveBaseline ⟨"x", none, none⟩ = defaultBaselineData
  ∧ effectiveBaseline ⟨"y", some defaultBaselineData, none⟩ = defaultBaselineData
  ∧ defaultBaselineData.global_temp = { current := 11/10, forecast := [] }
  ∧ defaultBaselineData.carbon_emissions = { current := 385/10, forecast := [] }
  ∧ defaultBaselineData.sea_level_rise = { current := 22/100, forecast := [] }
  ∧ defaultBaselineData.forest_loss = { current := 15, forecast := [] } :=
  C9_baseline_defaulting ⟨"x", none, none⟩ ⟨"y", some defaultBaselineData, none⟩
    defaultBaselineData rfl rfl

/-- Claim C10: after `initDatabase`, the scenarios table contains the seed
record — user input "What if we master fusion energy before 2025?" with
`alt_forecasts.global_temp_2100 = 1.8` — inserted exactly when no record
with that user input already exists, so a freshly initialized store is
non-empty. -/
theorem C10_seed_scenario (t1 t2 : List ScenarioRow)
    (h1 : t1.any (fun r => r.user_input == seedUserInput) = false)
    (h2 : t2.any (fun r => r.user_input == seedUserInput) = true) :
    initDatabase t1 = t1 ++ [seedRow]
  ∧ initDatabase t1 ≠ []
  ∧ seedRow.user_input = "What if we master fusion energy before 2025?"
  ∧ seedRow.alt_forecasts.map jsonDecode = some (some seedAltForecasts)
  ∧ seedAltForecasts.getField "global_temp_2100" = some (JVal.num 18 1)
  ∧ ((18 : Rat) / 10 ^ (1 : Nat)) = 1.8
  ∧ initDatabase t2 = t2 := by
  refine ⟨?_, ?_, rfl, rfl, rfl, by norm_num, ?_⟩
  · simp [initDatabase, h1]
  · simp [initDatabase, h1]
  · simp [initDatabase, h2]

theorem C10_seed_scenario_witness :
    initDatabase [] = [] ++ [seedRow]
  ∧ initDatabase [] ≠ []
  ∧ seedRow.user_input = "What if we master fusion energy before 2025?"
  ∧ seedRow.alt_forecasts.map jsonDecode = some (some seedAltForecasts)
  ∧ seedAltForecasts.getField "global_temp_2100" = some (JVal.num 18 1)
  ∧ ((18 : Rat) / 10 ^ (1 : Nat)) = 1.8
  ∧ initDatabase [seedRow] = [seedRow] :=
  C10_seed_scenario [] [seedRow] rfl rfl

/-- Claim C4 (counterexample): an input matching no keyword class does not
fail — `generateFallbackScenario` silently returns the generic optimistic
scenario; and the priority order differs from the claimed one — in
`createUniqueScenarioFromInput` the hero class is tested before the
fusion/energy class, so "hero of fusion" yields the Superman record. -/
theorem C4_no_match_produces_generic :
    generateFallbackScenario "What if the oceans turn purple?" = fbGeneric
  ∧ createUniqueScenarioFromInput "hero of fusion" = Except.ok uniqueSuperman :=
  ⟨rfl, rfl⟩

/-- Claim C4 (amended): both fallback generators lower-case the input and
test fixed keyword classes in fixed priority order with first match wins;
`createUniqueScenarioFromInput` (superman/hero, time-travel, alien,
fusion/nuclear/energy) throws an explicit error on no match, while
`generateFallbackScenario` (fusion/energy, net-zero/emissions/carbon,
geoengineering, superman/hero, time-travel) returns the generic optimistic
scenario on no match; the hero class outranks the fusion class in the
former and the fusion/energy class comes first in the latter. -/
theorem C4_keyword_dispatch (s1 s2 s3 s4 : String)
    (h1 : ∀ k ∈ createUniqueKeywords, containsSub (jsToLower s1) k = false)
    (h2 : ∀ k ∈ generateFallbackKeywords, containsSub (jsToLower s2) k = false)
    (h3 : containsSub (jsToLower s3) "hero" = true)
    (h4 : containsSub (jsToLower s4) "fusion" = true ∨ containsSub (jsToLower s4) "energy" = true) :
    createUniqueScenarioFromInput s1 = Except.error ("Failed to generate AI scenario for: \""
        ++ s1 ++ "\". The AI system is not working properly. Please try again or contact support.")
  ∧ generateFallbackScenario s2 = fbGeneric
  ∧ createUniqueScenarioFromInput s3 = Except.ok uniqueSuperman
  ∧ generateFallbackScenario s4 = fbFusion := by
  refine ⟨?_, ?_, ?_, ?_⟩
  · have k1 := h1 "superman" (by simp [createUniqueKeywords])
    have k2 := h1 "hero" (by simp [createUniqueKeywords])
    have k3 := h1 "superhero" (by simp [createUniqueKeywords])
    have k4 := h1 "time travel" (by simp [createUniqueKeywords])
    have k5 := h1 "time machine" (by simp [createUniqueKeywords])
    have k6 := h1 "alien" (by simp [createUniqueKeywords])
    have k7 := h1 "extraterrestrial" (by simp [createUniqueKeywords])
    have k8 := h1 "ufo" (by simp [createUniqueKeywords])
    have k9 := h1 "fusion" (by simp [createUniqueKeywords])
    have k10 := h1 "nuclear" (by simp [createUniqueKeywords])
    have k11 := h1 "energy" (by simp [createUniqueKeywords])
    simp [createUniqueScenarioFromInput, k1, k2, k3, k4, k5, k6, k7, k8, k9, k10, k11]
  · have k1 := h2 "fusion" (by simp [generateFallbackKeywords])
    have k2 := h2 "energy" (by simp [generateFallbackKeywords])
    have k3 := h2 "net-zero" (by simp [generateFallbackKeywords])
    have k4 := h2 "emissions" (by simp [generateFallbackKeywords])
    have k5 := h2 "carbon" (by simp [generateFallbackKeywords])
    have k6 := h2 "geoengineering" (by simp [generateFallbackKeywords])
    have k7 := h2 "climate engineering" (by simp [generateFallbackKeywords])
    have k8 := h2 "superman" (by simp [generateFallbackKeywords])
    have k9 := h2 "hero" (by simp [generateFallbackKeywords])
    have k10 := h2 "superhero" (by simp [generateFallbackKeywords])
    have k11 := h2 "time travel" (by simp [generateFallbackKeywords])
    have k12 := h2 "time machine" (by simp [generateFallbackKeywords])
    simp [generateFallbackScenario, k1, k2, k3, k4, k5, k6, k7, k8, k9, k10, k11, k12]
  · simp [createUniqueScenarioFromInput, h3]
  · rcases h4 with h4 | h4 <;> simp [generateFallbackScenario, h4]

theorem C4_keyword_dispatch_witness :
    createUniqueScenarioFromInput "abc" = Except.error ("Failed to generate AI scenario for: \""
        ++ "abc" ++ "\". The AI system is not working properly. Please try again or contact support.")
  ∧ generateFallbackScenario "abc" = fbGeneric
  ∧ createUniqueScenarioFromInput "superhero run" = Except.ok uniqueSuperman
  ∧ generateFallbackScenario "pure energy" = fbFusion :=
  C4_keyword_dispatch "abc" "abc" "superhero run" "pure energy"
    (by decide) (by decide) (by decide) (Or.inr (by decide))

/-- Claim C3 (counterexample): for a response holding two brace-delimited
objects, the parser does not decode the first bounded match — the greedy
extraction spans both objects, both phases fail, and the parser errors —
although the first object alone would have decoded fine. -/
theorem C3_multiple_objects_fail :
    parseCompletion "\x7b\"a\": 1\x7d \x7b\"b\": 2\x7d"
        = Except.error ("AI generated invalid JSON. Response: \x7b\"a\": 1\x7d \x7b\"b\": 2\x7d...")
  ∧ jsonDecode "\x7b\"a\": 1\x7d" = some (JVal.obj [("a", JVal.num 1 0)]) :=
  ⟨rfl, rfl⟩

/-- Claim C3 (amended): the parser first attempts a direct decode of the
full trimmed completion text; on failure it decodes the substring from the
first opening brace through the last closing brace — a greedy extraction
that spans all brace-delimited objects when the text holds several — and
if both phases fail it fails with a diagnostic carrying a 200-character
truncated prefix of the (trimmed) raw text. -/
theorem C3_two_phase_parse (r1 : String) (v1 : JVal) (r2 sub2 : String) (v2 : JVal)
    (r3 sub3 : String) (b mid a : String)
    (h1 : jsonDecode (jsTrim r1) = some v1)
    (h2a : jsonDecode (jsTrim r2) = none) (h2b : extractBraced (jsTrim r2) = some sub2)
    (h2c : jsonDecode sub2 = some v2)
    (h3a : jsonDecode (jsTrim r3) = none) (h3b : extractBraced (jsTrim r3) = some sub3)
    (h3c : jsonDecode sub3 = none)
    (hb : ∀ c ∈ b.data, c ≠ lbrace) (ha : ∀ c ∈ a.data, c ≠ rbrace) :
    parseCompletion r1 = Except.ok v1
  ∧ parseCompletion r2 = Except.ok v2
  ∧ parseCompletion r3
      = Except.error ("AI generated invalid JSON. Response: " ++ truncate200 (jsTrim r3))
  ∧ extractBraced (b ++ "\x7b" ++ mid ++ "\x7d" ++ a) = some ("\x7b" ++ mid ++ "\x7d") := by
  refine ⟨?_, ?_, ?_, extractBraced_span b mid a hb ha⟩
  · rw [parseCompletion_eq, h1]
  · rw [parseCompletion_eq, h2a, h2b]
    simp [h2c]
  · rw [parseCompletion_eq, h3a, h3b]
    simp [h3c]

theorem C3_two_phase_parse_witness :
    parseCompletion "\x7b\"a\": 1\x7d" = Except.ok (JVal.obj [("a", JVal.num 1 0)])
  ∧ parseCompletion "x \x7b\"a\": 1\x7d" = Except.ok (JVal.obj [("a", JVal.num 1 0)])
  ∧ parseCompletion "\x7b\x7b\x7d"
      = Except.error ("AI generated invalid JSON. Response: " ++ truncate200 (jsTrim "\x7b\x7b\x7d"))
  ∧ extractBraced ("pre" ++ "\x7b" ++ "\x7d 2nd \x7b" ++ "\x7d" ++ " post")
      = some ("\x7b" ++ "\x7d 2nd \x7b" ++ "\x7d") :=
  C3_two_phase_parse "\x7b\"a\": 1\x7d" (JVal.obj [("a", JVal.num 1 0)])
    "x \x7b\"a\": 1\x7d" "\x7b\"a\": 1\x7d" (JVal.obj [("a", JVal.num 1 0)])
    "\x7b\x7b\x7d" "\x7b\x7b\x7d" "pre" "\x7d 2nd \x7b" " post"
    rfl rfl rfl rfl rfl rfl rfl (by decide) (by decide)

/-- Claim C7 (counterexample): the round trip fails for arbitrary
surrounding prose — when the prose before the object itself contains an
opening brace, the greedy extraction starts at the prose's brace, both
phases fail and the parser errors instead of returning the record. -/
theorem C7_prose_with_brace_fails :
    parseCompletion ("note \x7b " ++ serializeStr (JVal.obj promptExampleFields))
      = Except.error ("AI generated invalid JSON. Response: "
          ++ truncate200 ("note \x7b " ++ serializeStr (JVal.obj promptExampleFields)))
  ∧ parseCompletion (serializeStr (JVal.obj promptExampleFields))
      = Except.ok (JVal.obj promptExampleFields) :=
  ⟨rfl, rfl⟩

/-- Claim C7 (amended): for every well-formed AltForecast record — the
nine fixed field names with plain non-negative decimal values — parsing
the serialization embedded in prose returns the original record, provided
the prose before the object contains no opening brace, no opening bracket
and no double quote and the prose after it contains no closing brace (a
brace, bracket or quote in the leading prose can start a JSON value of its
own — `[` before and `]` after make the whole text one valid array — or
derail the greedy extraction). -/
theorem C7_parser_roundtrip_prose (fields : List (String × JVal)) (b a : String)
    (hshape : fields.map Prod.fst = altForecastFieldNames)
    (hvals : ∀ p ∈ fields, ∃ m e, p.2 = JVal.num m e ∧ 0 ≤ m)
    (hb1 : ∀ c ∈ b.data, c ≠ lbrace) (hbk : ∀ c ∈ b.data, c ≠ '[')
    (hbq : ∀ c ∈ b.data, c ≠ dquote)
    (ha1 : ∀ c ∈ a.data, c ≠ rbrace) :
    parseCompletion (b ++ serializeStr (.obj fields) ++ a) = Except.ok (.obj fields) := by
  apply parseCompletion_prose fields b a ?_ hb1 hbk hbq ha1
  intro p hp
  constructor
  · have hmem : p.1 ∈ altForecastFieldNames := by
      rw [← hshape]
      exact List.mem_map_of_mem Prod.fst hp
    simp only [altForecastFieldNames, List.mem_cons, List.not_mem_nil, or_false] at hmem
    rcases hmem with h | h | h | h | h | h | h | h | h <;> (rw [h]; decide)
  · obtain ⟨m, e, hv, _⟩ := hvals p hp
    exact ⟨m, e, hv⟩

theorem C7_parser_roundtrip_prose_witness :
    parseCompletion ("Sure, here is the JSON: " ++ serializeStr (.obj promptExampleFields)
        ++ " hope this helps")
      = Except.ok (.obj promptExampleFields) :=
  C7_parser_roundtrip_prose promptExampleFields "Sure, here is the JSON: " " hope this helps"
    (by decide)
    (by
      intro p hp
      simp only [promptExampleFields, List.mem_cons, List.not_mem_nil, or_false] at hp
      rcases hp with rfl | rfl | rfl | rfl | rfl | rfl | rfl | rfl | rfl <;>
        exact ⟨_, _, rfl, by norm_num⟩)
    (by decide) (by decide) (by decide) (by decide)

end ClimateDash
